import Mathlib

/-!
# Verification of the cleanarr matching-and-decision engine

Shallow embedding of `src/services/cleanup.py` (class `CleanupService`).

Modelling conventions:
* Python strings are `List Char`; the regex character classes `\w`, `\s` and
  `str.lower()` are modelled on their ASCII fragment (`pyWord`, `pySpace`,
  `pyLower`), which is the fragment exercised by every claim.
* Python floats are modelled as exact rationals (`ℚ`); all scores arising in
  the engine are rationals (similarity ratios, the 0.1 year bonus, thresholds).
* Python dictionaries from the web APIs are modelled as records whose fields
  are `Option`-valued exactly where the code uses `dict.get` with a default.
* A collaborator call that may raise is an `Except (List Char) α` value, the
  error carrying the exception message used in `f"... {e}"` interpolations.
-/

/-- ASCII fragment of Python's regex class `\s` (also `str.strip`'s default):
space, tab, newline, carriage return, vertical tab, form feed. -/
def pySpace (c : Char) : Bool :=
  c.toNat = 32 || c.toNat = 9 || c.toNat = 10 || c.toNat = 13 || c.toNat = 11 || c.toNat = 12

/-- ASCII fragment of Python's regex class `\w`: digits `0`–`9`, letters
`A`–`Z` and `a`–`z`, underscore. -/
def pyWord (c : Char) : Bool :=
  (48 ≤ c.toNat && c.toNat ≤ 57) || (65 ≤ c.toNat && c.toNat ≤ 90) ||
    (97 ≤ c.toNat && c.toNat ≤ 122) || c.toNat = 95

/-- ASCII fragment of Python's `str.lower` applied to one character:
`A`–`Z` (codes 65–90) map 32 codepoints up, everything else is unchanged. -/
def pyLower (c : Char) : Char :=
  if 65 ≤ c.toNat ∧ c.toNat ≤ 90 then Char.ofNat (c.toNat + 32) else c

/-- The substitution `re.sub(r"^(The|A|An)\s+", "", title, flags=IGNORECASE)`:
if the string starts with an article followed by at least one whitespace
character, return the remainder after the article and the whole greedy
whitespace run (`\s+`), otherwise `none`.  The regex alternation tries
`The`, then `A`, then `An`; `aArticleSplit` handles the two `A`/`An`
alternatives. -/
def aArticleSplit : List Char → Option (List Char)
  | c1 :: c2 :: rest =>
      if pyLower c1 = 'a' then
        if pySpace c2 then some (rest.dropWhile pySpace)
        else
          match rest with
          | c3 :: rest2 =>
              if pyLower c2 = 'n' && pySpace c3 then some (rest2.dropWhile pySpace)
              else none
          | [] => none
      else none
  | _ => none

/-- See `aArticleSplit`; this is the full `(The|A|An)\s+` prefix match. -/
def articleSplit : List Char → Option (List Char)
  | c1 :: c2 :: c3 :: c4 :: rest =>
      if pyLower c1 = 't' && pyLower c2 = 'h' && pyLower c3 = 'e' && pySpace c4 then
        some (rest.dropWhile pySpace)
      else aArticleSplit (c1 :: c2 :: c3 :: c4 :: rest)
  | s => aArticleSplit s

/-- First normalization step of `normalize_title` (cleanup.py line 35). -/
def stripArticle (s : List Char) : List Char :=
  (articleSplit s).getD s

/-- Index of the last `'('` in `l`, if any. -/
def lastOpenIdx (l : List Char) : Option Nat :=
  match l.reverse.findIdx? (fun c => c = '(') with
  | some k => some (l.length - 1 - k)
  | none => none

/-- Drop a maximal run of trailing whitespace. -/
def rstripWs : List Char → List Char
  | [] => []
  | c :: t =>
      match rstripWs t with
      | [] => if pySpace c then [] else [c]
      | r => c :: r

/-- Second normalization step: `re.sub(r"\s*\([^)]*\)$", "", title)`
(cleanup.py line 36).  The leftmost match ending at the end of the string
removes the earliest `'('` that has no `')'` strictly between it and the
final `')'`, together with the whitespace run immediately before it. -/
def stripTrailingParen (s : List Char) : List Char :=
  match s.reverse with
  | ')' :: u =>
      let pre := u.takeWhile (fun c => c ≠ ')')
      match lastOpenIdx pre with
      | some idx => ((u.drop (idx + 1)).dropWhile pySpace).reverse
      | none => s
  | _ => s

/-- Third normalization step: `re.sub(r"[^\w\s]", " ", title)` (line 37). -/
def replaceSpecials (s : List Char) : List Char :=
  s.map fun c => if pyWord c || pySpace c then c else ' '

/-- Helper for `collapseWs`: `prevSpace` records whether the previous input
character was whitespace (in which case further whitespace is absorbed into
the already-emitted single space). -/
def collapseWsAux (prevSpace : Bool) : List Char → List Char
  | [] => []
  | c :: rest =>
      if pySpace c then
        if prevSpace then collapseWsAux true rest
        else ' ' :: collapseWsAux true rest
      else c :: collapseWsAux false rest

/-- `re.sub(r"\s+", " ", title)`: collapse every whitespace run to one space. -/
def collapseWs (s : List Char) : List Char :=
  collapseWsAux false s

/-- Python `str.strip()` (restricted to ASCII whitespace). -/
def pyStrip (s : List Char) : List Char :=
  rstripWs (s.dropWhile pySpace)

/-- `CleanupService.normalize_title` (cleanup.py lines 32–39). -/
def normalize_title (title : List Char) : List Char :=
  let t1 := stripArticle title
  let t2 := stripTrailingParen t1
  let t3 := replaceSpecials t2
  (pyStrip (collapseWs t3)).map pyLower

/-- Does the string begin with an article (`the`/`a`/`an`, case-insensitive)
followed by at least one whitespace character?  This is exactly the condition
under which the first regex of `normalize_title` fires. -/
def startsWithArticleWs (s : List Char) : Bool :=
  (articleSplit s).isSome

/-- Is the first character whitespace? (`false` for the empty string.) -/
def headIsSpace : List Char → Bool
  | [] => false
  | c :: _ => pySpace c

/-- Is the last character whitespace? (`false` for the empty string.) -/
def lastIsSpace : List Char → Bool
  | [] => false
  | [c] => pySpace c
  | _ :: d :: rest => lastIsSpace (d :: rest)

/-- No two adjacent whitespace characters. -/
def noDoubleSpace : List Char → Bool
  | [] => true
  | c :: rest => (!(pySpace c && headIsSpace rest)) && noDoubleSpace rest

/-- Length of the longest common prefix of two character lists. -/
def cpl : List Char → List Char → Nat
  | a :: as, b :: bs => if a = b then cpl as bs + 1 else 0
  | _, _ => 0

/-- All index pairs `(i, j)` with `i < la`, `j < lb`, in row-major order
(`i` ascending, and `j` ascending within each `i`). -/
def allIJ (la lb : Nat) : List (Nat × Nat) :=
  (List.range la).flatMap fun i => (List.range lb).map fun j => (i, j)

/-- One step of the longest-block scan: the candidate block at `(i, j)` (of
length `cpl (a.drop i) (b.drop j)`) replaces the current best only if it is
strictly longer, so the first-seen maximal block wins. -/
def blockStep (a b : List Char) (best : Nat × Nat × Nat) (p : Nat × Nat) : Nat × Nat × Nat :=
  let k := cpl (a.drop p.1) (b.drop p.2)
  if k > best.2.2 then (p.1, p.2, k) else best

/-- Modelled from the spec: the similarity scorer of §4.2 is
`difflib.SequenceMatcher(None, a, b).ratio()` from the Python standard
library, whose code is outside this repository.  Per the spec's description
("recursively find the longest common contiguous run ...") and the library's
documented contract for `find_longest_match`, `bestBlock a b` is the longest
common contiguous block, and among equally long blocks the one starting
earliest in `a`, then earliest in `b`, wins. -/
def bestBlock (a b : List Char) : Nat × Nat × Nat :=
  (allIJ a.length b.length).foldl (blockStep a b) (0, 0, 0)

/-- Modelled from the spec: total number of matched characters `M` of §4.2 —
the chosen block's length plus the matches of the independent recursion on
the portions before and after the block on each side.  `fuel` dominates the
recursion depth; `a.length + 1` always suffices since every recursive call
strictly shrinks the first string. -/
def matchesTotalF : Nat → List Char → List Char → Nat
  | 0, _, _ => 0
  | fuel + 1, a, b =>
      let t := bestBlock a b
      if t.2.2 = 0 then 0
      else
        t.2.2 + matchesTotalF fuel (a.take t.1) (b.take t.2.1)
          + matchesTotalF fuel (a.drop (t.1 + t.2.2)) (b.drop (t.2.1 + t.2.2))

/-- Total matched characters `M` between two strings. -/
def matchesTotal (a b : List Char) : Nat :=
  matchesTotalF (a.length + 1) a b

/-- Modelled from the spec: `SequenceMatcher.ratio()` is
`2*M / (len(a) + len(b))`, and `1` when both strings are empty. -/
def ratioQ (a b : List Char) : ℚ :=
  if a.length + b.length = 0 then 1
  else (2 * matchesTotal a b : ℚ) / (a.length + b.length)

/-- `CleanupService.calculate_similarity` (cleanup.py lines 41–45): both
titles are normalized, then scored by the matching ratio. -/
def calculate_similarity (t1 t2 : List Char) : ℚ :=
  ratioQ (normalize_title t1) (normalize_title t2)

/-- Per-viewer watch metadata: the `"UserData"` sub-dictionary of a Jellyfin
item (`dict.get` defaults: `IsFavorite` false, `LastPlayedDate` absent). -/
structure PyUserData where
  IsFavorite : Bool := false
  LastPlayedDate : Option (List Char) := none
deriving DecidableEq

/-- A Jellyfin item dictionary (watched movie, series, episode or season),
restricted to the keys the engine reads.  A `none` field models an absent
key. -/
structure JfItem where
  Id : Option (List Char) := none
  Name : Option (List Char) := none
  ProductionYear : Option Int := none
  UserData : Option PyUserData := none
  ParentIndexNumber : Option Int := none
  IndexNumber : Option Int := none
deriving DecidableEq

/-- A Radarr movie / Sonarr series dictionary, restricted to the keys the
engine reads. -/
structure CatalogEntry where
  id : Option Int := none
  title : Option (List Char) := none
  year : Option Int := none
deriving DecidableEq

/-- The year bonus of the matchers (cleanup.py lines 68–72):
`0.1 if jellyfin_year and radarr_year and jellyfin_year == radarr_year else 0`.
Python truthiness makes both an absent year and a year `0` fail the test. -/
def yearBonus (jy ry : Option Int) : ℚ :=
  match jy, ry with
  | some y1, some y2 => if y1 ≠ 0 ∧ y2 ≠ 0 ∧ y1 = y2 then 1/10 else 0
  | _, _ => 0

/-- `total_score` of one catalog entry against one watched item: title
similarity plus year bonus (cleanup.py lines 64–74); `.get("Name", "")` and
`.get("title", "")` supply empty-string defaults. -/
def totalScore (item : JfItem) (entry : CatalogEntry) : ℚ :=
  calculate_similarity (item.Name.getD []) (entry.title.getD [])
    + yearBonus item.ProductionYear entry.year

/-- The matcher loop shared by `find_matching_movie` and
`find_matching_series` (their bodies are textually identical): scan the
catalog in order, keeping `best_match`/`best_score`, updating only when
`total_score > best_score and total_score >= threshold`. -/
def fmmLoop (item : JfItem) (threshold : ℚ) :
    List CatalogEntry → Option CatalogEntry → ℚ → Option CatalogEntry
  | [], best, _ => best
  | e :: rest, best, bestScore =>
      let ts := totalScore item e
      if ts > bestScore ∧ ts ≥ threshold then fmmLoop item threshold rest (some e) ts
      else fmmLoop item threshold rest best bestScore

/-- `CleanupService.find_matching_movie` (cleanup.py lines 47–80). -/
def find_matching_movie (jellyfin_movie : JfItem) (radarr_movies : List CatalogEntry)
    (threshold : ℚ := 4/5) : Option CatalogEntry :=
  fmmLoop jellyfin_movie threshold radarr_movies none 0

/-- `CleanupService.find_matching_series` (cleanup.py lines 82–115). -/
def find_matching_series (jellyfin_series : JfItem) (sonarr_series : List CatalogEntry)
    (threshold : ℚ := 4/5) : Option CatalogEntry :=
  fmmLoop jellyfin_series threshold sonarr_series none 0

/-- A parsed `datetime` value; all parsed values carry `tzinfo=utc`, so
comparison is lexicographic on the components. -/
structure PyDateTime where
  year : Nat
  month : Nat
  day : Nat
  hour : Nat
  minute : Nat
  second : Nat
  microsecond : Nat
deriving DecidableEq

/-- Python `datetime <=` for two equal-timezone values: lexicographic on
(year, month, day, hour, minute, second, microsecond). -/
def dtLe (a b : PyDateTime) : Bool :=
  if a.year ≠ b.year then decide (a.year < b.year)
  else if a.month ≠ b.month then decide (a.month < b.month)
  else if a.day ≠ b.day then decide (a.day < b.day)
  else if a.hour ≠ b.hour then decide (a.hour < b.hour)
  else if a.minute ≠ b.minute then decide (a.minute < b.minute)
  else if a.second ≠ b.second then decide (a.second < b.second)
  else decide (a.microsecond ≤ b.microsecond)

/-- ASCII decimal digit. -/
def isDigitCh (c : Char) : Bool :=
  48 ≤ c.toNat && c.toNat ≤ 57

/-- Value of an ASCII digit. -/
def digitVal (c : Char) : Nat :=
  c.toNat - 48

/-- Candidate parses (value, remaining input) of `strptime`'s `%m` field,
regex `(1[0-2]|0[1-9]|[1-9])`, two-digit alternatives first (regex
alternation order with backtracking). -/
def monthCands : List Char → List (Nat × List Char)
  | c1 :: c2 :: r =>
      (if isDigitCh c1 && isDigitCh c2 &&
          (decide (digitVal c1 = 1 ∧ digitVal c2 ≤ 2) ||
           decide (digitVal c1 = 0 ∧ 1 ≤ digitVal c2)) then
        [(10 * digitVal c1 + digitVal c2, r)]
      else []) ++
      (if isDigitCh c1 && decide (1 ≤ digitVal c1) then [(digitVal c1, c2 :: r)] else [])
  | [c1] => if isDigitCh c1 && decide (1 ≤ digitVal c1) then [(digitVal c1, [])] else []
  | [] => []

/-- Candidate parses of `%d`, regex `(3[01]|[12]\d|0[1-9]|[1-9])`. -/
def dayCands : List Char → List (Nat × List Char)
  | c1 :: c2 :: r =>
      (if isDigitCh c1 && isDigitCh c2 &&
          (decide (digitVal c1 = 3 ∧ digitVal c2 ≤ 1) ||
           decide (1 ≤ digitVal c1 ∧ digitVal c1 ≤ 2) ||
           decide (digitVal c1 = 0 ∧ 1 ≤ digitVal c2)) then
        [(10 * digitVal c1 + digitVal c2, r)]
      else []) ++
      (if isDigitCh c1 && decide (1 ≤ digitVal c1) then [(digitVal c1, c2 :: r)] else [])
  | [c1] => if isDigitCh c1 && decide (1 ≤ digitVal c1) then [(digitVal c1, [])] else []
  | [] => []

/-- Candidate parses of `%H`, regex `(2[0-3]|[0-1]\d|\d)`. -/
def hourCands : List Char → List (Nat × List Char)
  | c1 :: c2 :: r =>
      (if isDigitCh c1 && isDigitCh c2 &&
          (decide (digitVal c1 = 2 ∧ digitVal c2 ≤ 3) || decide (digitVal c1 ≤ 1)) then
        [(10 * digitVal c1 + digitVal c2, r)]
      else []) ++
      (if isDigitCh c1 then [(digitVal c1, c2 :: r)] else [])
  | [c1] => if isDigitCh c1 then [(digitVal c1, [])] else []
  | [] => []

/-- Candidate parses of `%M`, regex `([0-5]\d|\d)`. -/
def minuteCands : List Char → List (Nat × List Char)
  | c1 :: c2 :: r =>
      (if isDigitCh c1 && isDigitCh c2 && decide (digitVal c1 ≤ 5) then
        [(10 * digitVal c1 + digitVal c2, r)]
      else []) ++
      (if isDigitCh c1 then [(digitVal c1, c2 :: r)] else [])
  | [c1] => if isDigitCh c1 then [(digitVal c1, [])] else []
  | [] => []

/-- Candidate parses of `%S`, regex `(6[01]|[0-5]\d|\d)` (leap seconds are
matched by the regex; the `datetime` constructor rejects them later). -/
def secondCands : List Char → List (Nat × List Char)
  | c1 :: c2 :: r =>
      (if isDigitCh c1 && isDigitCh c2 &&
          (decide (digitVal c1 = 6 ∧ digitVal c2 ≤ 1) || decide (digitVal c1 ≤ 5)) then
        [(10 * digitVal c1 + digitVal c2, r)]
      else []) ++
      (if isDigitCh c1 then [(digitVal c1, c2 :: r)] else [])
  | [c1] => if isDigitCh c1 then [(digitVal c1, [])] else []
  | [] => []

/-- Try each candidate in order until the continuation succeeds (regex
backtracking over the alternation). -/
def tryCands {α : Type} : List (Nat × List Char) → (Nat → List Char → Option α) → Option α
  | [], _ => none
  | (v, r) :: rest, k =>
      match k v r with
      | some x => some x
      | none => tryCands rest k

/-- Require one literal separator character (the `strptime` regex is compiled
case-insensitively, so the literal `T` also matches `t`). -/
def expectCh (c : Char) : List Char → Option (List Char)
  | d :: r => if pyLower d = pyLower c then some r else none
  | [] => none

/-- `%Y`: exactly four digits. -/
def yearParse : List Char → Option (Nat × List Char)
  | c1 :: c2 :: c3 :: c4 :: r =>
      if isDigitCh c1 && isDigitCh c2 && isDigitCh c3 && isDigitCh c4 then
        some (1000 * digitVal c1 + 100 * digitVal c2 + 10 * digitVal c3 + digitVal c4, r)
      else none
  | _ => none

/-- Gregorian leap year. -/
def isLeap (y : Nat) : Bool :=
  y % 4 = 0 && (y % 100 ≠ 0 || y % 400 = 0)

/-- Length of a month, as validated by the `datetime` constructor. -/
def daysInMonth (y mo : Nat) : Nat :=
  if mo = 2 then (if isLeap y then 29 else 28)
  else if mo = 4 ∨ mo = 6 ∨ mo = 9 ∨ mo = 11 then 30 else 31

/-- Numeric value of a digit string. -/
def digitsToNat : List Char → Nat → Nat
  | [], acc => acc
  | c :: r, acc => digitsToNat r (10 * acc + digitVal c)

/-- `datetime.strptime(s, "%Y-%m-%dT%H:%M:%S.%f")`: full-match the format
regex with backtracking across the per-field alternations, read `%f` as a
right-padded microsecond value, then apply the `datetime` constructor's
range validation (year ≥ 1, day within the month, second ≤ 59 — the regex
itself already bounds month, day ≤ 31, hour ≤ 23, minute ≤ 59). -/
def strptimeDT (l : List Char) : Option PyDateTime :=
  match yearParse l with
  | none => none
  | some (y, r) =>
      match expectCh '-' r with
      | none => none
      | some r =>
          tryCands (monthCands r) fun mo r =>
            match expectCh '-' r with
            | none => none
            | some r =>
                tryCands (dayCands r) fun d r =>
                  match expectCh 'T' r with
                  | none => none
                  | some r =>
                      tryCands (hourCands r) fun h r =>
                        match expectCh ':' r with
                        | none => none
                        | some r =>
                            tryCands (minuteCands r) fun mi r =>
                              match expectCh ':' r with
                              | none => none
                              | some r =>
                                  tryCands (secondCands r) fun s r =>
                                    match expectCh '.' r with
                                    | none => none
                                    | some r =>
                                        if r ≠ [] ∧ r.length ≤ 6 ∧ r.all isDigitCh then
                                          let us := digitsToNat r 0 * 10 ^ (6 - r.length)
                                          if 1 ≤ y ∧ d ≤ daysInMonth y mo ∧ s ≤ 59 then
                                            some ⟨y, mo, d, h, mi, s, us⟩
                                          else none
                                        else none

/-- `date_str.rstrip("Z")`: drop every trailing `Z`. -/
def rstripZ (l : List Char) : List Char :=
  (l.reverse.dropWhile (fun c => c = 'Z')).reverse

/-- `CleanupService._parse_last_played` (cleanup.py lines 122–142): trim
trailing `Z`s, split off the fraction at the first `.` (defaulting to `"0"`),
right-pad/truncate it to six digits, parse with
`strptime("%Y-%m-%dT%H:%M:%S.%f")`; every failure (absent key, empty string,
parse error, constructor range error) is swallowed and yields `None`. -/
def _parse_last_played (item : JfItem) : Option PyDateTime :=
  let ud := item.UserData.getD {}
  match ud.LastPlayedDate with
  | none => none
  | some ds =>
      if ds = [] then none
      else
        let trimmed := rstripZ ds
        let main := trimmed.takeWhile (fun c => c ≠ '.')
        let fraction := if trimmed.length = main.length then ['0']
          else trimmed.drop (main.length + 1)
        let fraction6 := (fraction ++ "000000".data).take 6
        strptimeDT (main ++ '.' :: fraction6)

/-- `CleanupService._filter_by_watch_age` (cleanup.py lines 144–164), keeping
the list logic: an item is kept iff its `LastPlayedDate` parses and is at or
before the cutoff (`datetime.now(utc) - timedelta(days=min_age_days)`, passed
here as the `cutoff` argument; the skipped-item counter only feeds a log
line).  Python's `if last_played and last_played <= cutoff` is
`last_played is not None and last_played <= cutoff` since `datetime` values
are always truthy. -/
def _filter_by_watch_age (items : List JfItem) (cutoff : PyDateTime) : List JfItem :=
  match items with
  | [] => []
  | item :: rest =>
      if (match _parse_last_played item with
          | some t => dtLe t cutoff
          | none => false) then
        item :: _filter_by_watch_age rest cutoff
      else _filter_by_watch_age rest cutoff

/-- A Jellyfin user dictionary; `user["Id"]` is a mandatory key. -/
structure JfUser where
  Id : List Char
deriving DecidableEq

/-- A Sonarr episode dictionary, restricted to the keys the engine reads. -/
structure SonarrEpisode where
  id : Option Int := none
  seasonNumber : Option Int := none
  episodeNumber : Option Int := none
deriving DecidableEq

/-- The Jellyfin client as seen by the engine: each method is the pure
outcome of the corresponding blocking call for this run — `Except.error msg`
models a raised exception with message `msg`. -/
structure JellyfinEnv where
  get_users : Except (List Char) (List JfUser)
  get_current_user : Except (List Char) JfUser
  get_watched_movies : List Char → Except (List Char) (List JfItem)
  get_watched_series : List Char → Except (List Char) (List JfItem)
  get_watched_episodes_for_series : List Char → List Char → Except (List Char) (List JfItem)
  get_favorite_episodes_for_series : List Char → List Char → Except (List Char) (List JfItem)
  get_favorite_seasons_for_series : List Char → List Char → Except (List Char) (List JfItem)
  delete_item : Option (List Char) → Except (List Char) Bool

/-- The Radarr client (`get_watched_items(user_id, ["Movie"])` and
`["Series"]` are split into the two Jellyfin fields above). -/
structure RadarrEnv where
  get_movies : Except (List Char) (List CatalogEntry)
  delete_movie : Option Int → Bool → Bool → Except (List Char) Bool

/-- The Sonarr client. -/
structure SonarrEnv where
  get_series : Except (List Char) (List CatalogEntry)
  get_episodes : Option Int → Except (List Char) (List SonarrEpisode)
  is_series_fully_watched : Int → Except (List Char) Bool
  delete_series : Option Int → Bool → Bool → Except (List Char) Bool
  set_single_episode_monitored : Option Int → Bool → Except (List Char) Bool

/-- The qBittorrent client. -/
structure QbtEnv where
  is_media_in_torrents : List Char → Option Int → Except (List Char) Bool

/-- `CleanupService.__init__` (cleanup.py lines 20–30): Jellyfin is
mandatory, the other collaborators optional.  `cutoff d` models
`datetime.now(timezone.utc) - timedelta(days=d)`, the only use the engine
makes of the wall clock (the clock is modelled as fixed for the run). -/
structure CleanupService where
  jellyfin : JellyfinEnv
  radarr : Option RadarrEnv := none
  sonarr : Option SonarrEnv := none
  qbittorrent : Option QbtEnv := none
  cutoff : Int → PyDateTime

/-- `CleanupService._is_favorite` (cleanup.py lines 117–120). -/
def _is_favorite (item : JfItem) : Bool :=
  (item.UserData.getD {}).IsFavorite

/-- Insert into a Python dict modelled as an association list: a new key is
appended (insertion order), an existing key keeps its position but takes the
new value (last write wins). -/
def dictInsert {κ α : Type} [DecidableEq κ] (acc : List (κ × α)) (key : κ) (v : α) :
    List (κ × α) :=
  if acc.any (fun kv => decide (kv.1 = key)) then
    acc.map (fun kv => if kv.1 = key then (key, v) else kv)
  else acc ++ [(key, v)]

/-- Python `dict.get`. -/
def dictGet {κ α : Type} [DecidableEq κ] (l : List (κ × α)) (k : κ) : Option α :=
  (l.find? (fun kv => decide (kv.1 = k))).map Prod.snd

/-- `{item.get("Id"): item for item in items}.values()` (cleanup.py lines
358–363): deduplicate by identifier, keeping first-insertion order and the
last item reported for each identifier. -/
def dedupById (items : List JfItem) : List JfItem :=
  (items.foldl (fun acc it => dictInsert acc it.Id it) []).map Prod.snd

/-- The favorite-exclusion loops (cleanup.py lines 365–394); the counters
only feed log lines, the retained list is a filter. -/
def filterNonFavorites (items : List JfItem) : List JfItem :=
  items.filter (fun it => !(_is_favorite it))

/-- The optional watch-age filtering applied to a deduplicated list
(cleanup.py lines 396–404): only when `min_watch_age_days` is present and
non-negative. -/
def agedList (cutoff : Int → PyDateTime) (min_watch_age_days : Option Int)
    (items : List JfItem) : List JfItem :=
  match min_watch_age_days with
  | some d => if 0 ≤ d then _filter_by_watch_age items (cutoff d) else items
  | none => items

/-- One movie-cleanup entry (the dict built at cleanup.py lines 426–435). -/
structure MovieEntry where
  jellyfin_item : JfItem
  radarr_item : CatalogEntry
  similarity_score : ℚ
  in_qbittorrent : Bool
deriving DecidableEq

/-- One series-cleanup entry (the dict built at cleanup.py lines 464–475). -/
structure SeriesEntry where
  jellyfin_item : JfItem
  sonarr_item : CatalogEntry
  similarity_score : ℚ
  fully_downloaded : Bool
  in_qbittorrent : Bool
  favorite_episodes : Bool
deriving DecidableEq

/-- One matched episode (the dict built at cleanup.py lines 306–313). -/
structure MatchedEpisode where
  jellyfin_episode : JfItem
  sonarr_episode : SonarrEpisode
  season_number : Option Int
  episode_number : Option Int
deriving DecidableEq

/-- One episode-cleanup entry (the dict built at cleanup.py lines 318–324). -/
structure EpisodeEntry where
  jellyfin_series : JfItem
  sonarr_series : CatalogEntry
  similarity_score : ℚ
  episodes : List MatchedEpisode
  in_qbittorrent : Bool
deriving DecidableEq

/-- Per-user step of `_collect_watched_episodes_for_series` (cleanup.py lines
181–208): state is (episodes-by-id dict, favorite season numbers so far); a
fault in either Jellyfin call discards this user's data and continues. -/
def collectStep (env : JellyfinEnv) (series_id : List Char)
    (st : List (Option (List Char) × JfItem) × List Int) (user : JfUser) :
    List (Option (List Char) × JfItem) × List Int :=
  match env.get_watched_episodes_for_series user.Id series_id,
        env.get_favorite_seasons_for_series user.Id series_id with
  | Except.ok watched_episodes, Except.ok favorite_seasons =>
      let favNums := st.2 ++ favorite_seasons.filterMap (fun s => s.IndexNumber)
      let dict := watched_episodes.foldl (fun acc episode =>
        if _is_favorite episode ||
            (match episode.ParentIndexNumber with
             | some n => favNums.contains n
             | none => false) then acc
        else dictInsert acc episode.Id episode) st.1
      (dict, favNums)
  | _, _ => st

/-- `CleanupService._collect_watched_episodes_for_series` (cleanup.py lines
166–227). -/
def _collect_watched_episodes_for_series (env : JellyfinEnv)
    (cutoff : Int → PyDateTime) (users : List JfUser) (jellyfin_series : JfItem)
    (min_watch_age_days : Option Int) : List JfItem :=
  match jellyfin_series.Id with
  | none => []
  | some sid =>
      if sid = [] then []
      else
        let st := users.foldl (collectStep env sid) ([], [])
        let episodes := st.1.map Prod.snd
        match min_watch_age_days with
        | some d =>
            if 0 ≤ d ∧ episodes ≠ [] then
              _filter_by_watch_age episodes (cutoff (d : Int))
            else episodes
        | none => episodes

/-- `CleanupService._series_has_favorite_content` (cleanup.py lines 229–255):
true when some user (whose two favorite lookups both succeed) has a
favorited episode or season in the series; faults skip that user. -/
def _series_has_favorite_content (env : JellyfinEnv) (users : List JfUser)
    (jellyfin_series : JfItem) : Bool :=
  match jellyfin_series.Id with
  | none => false
  | some sid =>
      if sid = [] then false
      else users.any (fun user =>
        match env.get_favorite_episodes_for_series user.Id sid,
              env.get_favorite_seasons_for_series user.Id sid with
        | Except.ok favorites, Except.ok seasons =>
            !(favorites.isEmpty) || !(seasons.isEmpty)
        | _, _ => false)

/-- `CleanupService._build_episode_cleanup_entry` (cleanup.py lines 257–324).
Faults from `sonarr.get_episodes` are swallowed (`None`); episodes lacking
season/episode numbers or a Sonarr counterpart are silently skipped. -/
def _build_episode_cleanup_entry (svc : CleanupService) (users : List JfUser)
    (jellyfin_series : JfItem) (sonarr_series : CatalogEntry)
    (similarity_score : ℚ) (min_watch_age_days : Option Int)
    (in_qbittorrent : Bool) : Option EpisodeEntry :=
  match svc.sonarr with
  | none => none
  | some sonarr =>
      let jellyfin_episodes := _collect_watched_episodes_for_series svc.jellyfin
        svc.cutoff users jellyfin_series min_watch_age_days
      if jellyfin_episodes = [] then none
      else
        match sonarr.get_episodes sonarr_series.id with
        | Except.error _ => none
        | Except.ok sonarr_episodes =>
            let sonarr_episode_map := sonarr_episodes.foldl
              (fun acc episode =>
                dictInsert acc (episode.seasonNumber, episode.episodeNumber) episode) []
            let matched_episodes := jellyfin_episodes.filterMap (fun episode =>
              match episode.ParentIndexNumber, episode.IndexNumber with
              | some season, some number =>
                  match dictGet sonarr_episode_map (some season, some number) with
                  | some sonarr_episode =>
                      some { jellyfin_episode := episode, sonarr_episode := sonarr_episode,
                             season_number := some season, episode_number := some number }
                  | none => none
              | _, _ => none)
            if matched_episodes = [] then none
            else some { jellyfin_series := jellyfin_series, sonarr_series := sonarr_series,
                        similarity_score := similarity_score, episodes := matched_episodes,
                        in_qbittorrent := in_qbittorrent }

/-- The watched-content fetch loop of `get_cleanup_candidates` (cleanup.py
lines 349–355); a fault from either call escapes to the function's blanket
handler. -/
def fetchWatched (env : JellyfinEnv) :
    List JfUser → List JfItem → List JfItem → Except Unit (List JfItem × List JfItem)
  | [], ms, ss => Except.ok (ms, ss)
  | u :: rest, ms, ss =>
      match env.get_watched_movies u.Id with
      | Except.error _ => Except.error ()
      | Except.ok wm =>
          match env.get_watched_series u.Id with
          | Except.error _ => Except.error ()
          | Except.ok ws => fetchWatched env rest (ms ++ wm) (ss ++ ws)

/-- The Radarr matching loop of `get_cleanup_candidates` (cleanup.py lines
410–435).  An error carries the entries appended before the fault (the
mutable list's contents when the blanket handler fires). -/
def moviesLoop (svc : CleanupService) (radarr_movies : List CatalogEntry) :
    List JfItem → List MovieEntry → Except (List MovieEntry) (List MovieEntry)
  | [], acc => Except.ok acc
  | jellyfin_movie :: rest, acc =>
      match find_matching_movie jellyfin_movie radarr_movies with
      | none => moviesLoop svc radarr_movies rest acc
      | some radarr_match =>
          let movie_title := jellyfin_movie.Name.getD []
          let movie_year := jellyfin_movie.ProductionYear
          match (match svc.qbittorrent with
                 | some q => q.is_media_in_torrents movie_title movie_year
                 | none => Except.ok false) with
          | Except.error _ => Except.error acc
          | Except.ok in_qbittorrent =>
              moviesLoop svc radarr_movies rest (acc ++ [{
                jellyfin_item := jellyfin_movie,
                radarr_item := radarr_match,
                similarity_score :=
                  calculate_similarity movie_title (radarr_match.title.getD []),
                in_qbittorrent := in_qbittorrent }])

/-- The body of one iteration of the Sonarr matching loop (cleanup.py lines
441–495). -/
def seriesMatchStep (svc : CleanupService) (sonarr : SonarrEnv) (users : List JfUser)
    (min_watch_age_days : Option Int) (collect_episode_data : Bool)
    (sonarr_series : List CatalogEntry) (jellyfin_show : JfItem)
    (seriesAcc : List SeriesEntry) (epsAcc : List EpisodeEntry) :
    Except (List SeriesEntry × List EpisodeEntry) (List SeriesEntry × List EpisodeEntry) :=
  match find_matching_series jellyfin_show sonarr_series with
  | none => Except.ok (seriesAcc, epsAcc)
  | some sonarr_match =>
      let series_title := jellyfin_show.Name.getD []
      let series_year := jellyfin_show.ProductionYear
      let series_id := sonarr_match.id
      match (match svc.qbittorrent with
             | some q => q.is_media_in_torrents series_title series_year
             | none => Except.ok false) with
      | Except.error _ => Except.error (seriesAcc, epsAcc)
      | Except.ok in_qbittorrent =>
          let similarity := calculate_similarity series_title (sonarr_match.title.getD [])
          let has_favorite_episodes := _series_has_favorite_content svc.jellyfin users jellyfin_show
          match (match series_id with
                 | some n => if n ≠ 0 then sonarr.is_series_fully_watched n else Except.ok false
                 | none => Except.ok false) with
          | Except.error _ => Except.error (seriesAcc, epsAcc)
          | Except.ok fully_downloaded =>
              let series_entry : SeriesEntry := {
                jellyfin_item := jellyfin_show, sonarr_item := sonarr_match,
                similarity_score := similarity, fully_downloaded := fully_downloaded,
                in_qbittorrent := in_qbittorrent, favorite_episodes := has_favorite_episodes }
              let seriesAcc2 := if has_favorite_episodes then seriesAcc
                else seriesAcc ++ [series_entry]
              let epsAcc2 :=
                if collect_episode_data && !in_qbittorrent then
                  match _build_episode_cleanup_entry svc users jellyfin_show sonarr_match
                      similarity min_watch_age_days in_qbittorrent with
                  | some episode_entry => epsAcc ++ [episode_entry]
                  | none => epsAcc
                else epsAcc
              Except.ok (seriesAcc2, epsAcc2)

/-- The Sonarr matching loop (cleanup.py lines 441–495). -/
def seriesLoop (svc : CleanupService) (sonarr : SonarrEnv) (users : List JfUser)
    (min_watch_age_days : Option Int) (collect_episode_data : Bool)
    (sonarr_series : List CatalogEntry) :
    List JfItem → List SeriesEntry → List EpisodeEntry →
      Except (List SeriesEntry × List EpisodeEntry) (List SeriesEntry × List EpisodeEntry)
  | [], sAcc, eAcc => Except.ok (sAcc, eAcc)
  | jshow :: rest, sAcc, eAcc =>
      match seriesMatchStep svc sonarr users min_watch_age_days collect_episode_data
          sonarr_series jshow sAcc eAcc with
      | Except.error e => Except.error e
      | Except.ok (s2, e2) =>
          seriesLoop svc sonarr users min_watch_age_days collect_episode_data
            sonarr_series rest s2 e2

/-- The Radarr phase of `get_cleanup_candidates` (cleanup.py lines 406–435):
skipped when no Radarr client is configured; a fault from `get_movies`
escapes with nothing built; a fault inside the matching loop escapes with
the movie entries built so far (series lists still empty). -/
def moviesPhase (svc : CleanupService) (unique_movies : List JfItem) :
    Except (List MovieEntry × List SeriesEntry × List EpisodeEntry) (List MovieEntry) :=
  match svc.radarr with
  | none => Except.ok []
  | some radarr =>
      match radarr.get_movies with
      | Except.error _ => Except.error ([], [], [])
      | Except.ok radarr_movies =>
          match moviesLoop svc radarr_movies unique_movies [] with
          | Except.error acc => Except.error (acc, [], [])
          | Except.ok l => Except.ok l

/-- The Sonarr phase of `get_cleanup_candidates` (cleanup.py lines 437–495):
skipped when no Sonarr client is configured; a fault escapes with the movie
entries (already complete) and the series/episode entries built so far. -/
def seriesPhase (svc : CleanupService) (users : List JfUser) (min_watch_age_days : Option Int)
    (collect_episode_data : Bool) (cleanup_movies : List MovieEntry)
    (unique_series : List JfItem) :
    Except (List MovieEntry × List SeriesEntry × List EpisodeEntry)
      (List SeriesEntry × List EpisodeEntry) :=
  match svc.sonarr with
  | none => Except.ok ([], [])
  | some sonarr =>
      match sonarr.get_series with
      | Except.error _ => Except.error (cleanup_movies, [], [])
      | Except.ok sonarr_series =>
          match seriesLoop svc sonarr users min_watch_age_days collect_episode_data
              sonarr_series unique_series [] [] with
          | Except.error p => Except.error (cleanup_movies, p.1, p.2)
          | Except.ok p => Except.ok p

/-- The part of `get_cleanup_candidates`'s `try`-block after the user list
is known (cleanup.py lines 345–501). -/
def gccAfterUsers (svc : CleanupService) (min_watch_age_days : Option Int)
    (collect_episode_data : Bool) (users : List JfUser) :
    Except (List MovieEntry × List SeriesEntry × List EpisodeEntry)
      (List MovieEntry × List SeriesEntry × List EpisodeEntry) :=
  match fetchWatched svc.jellyfin users [] [] with
  | Except.error _ => Except.error ([], [], [])
  | Except.ok (all_watched_movies, all_watched_series) =>
      let unique_movies := agedList svc.cutoff min_watch_age_days
        (filterNonFavorites (dedupById all_watched_movies))
      let unique_series := agedList svc.cutoff min_watch_age_days
        (filterNonFavorites (dedupById all_watched_series))
      match moviesPhase svc unique_movies with
      | Except.error t => Except.error t
      | Except.ok cleanup_movies =>
          match seriesPhase svc users min_watch_age_days collect_episode_data
              cleanup_movies unique_series with
          | Except.error t => Except.error t
          | Except.ok (cleanup_series, episode_cleanup) =>
              Except.ok (cleanup_movies, cleanup_series, episode_cleanup)

/-- The `try`-block of `get_cleanup_candidates` (cleanup.py lines 337–501):
`Except.error` carries what the blanket `except` handler at line 502 would
return — the three candidate lists as built when the fault escaped.
`min_watch_percentage` is a parameter of the source function that its body
never reads. -/
def gccBody (svc : CleanupService) (min_watch_percentage : ℚ)
    (min_watch_age_days : Option Int) (collect_episode_data : Bool) :
    Except (List MovieEntry × List SeriesEntry × List EpisodeEntry)
      (List MovieEntry × List SeriesEntry × List EpisodeEntry) :=
  match svc.jellyfin.get_users with
  | Except.ok users => gccAfterUsers svc min_watch_age_days collect_episode_data users
  | Except.error _ =>
      match svc.jellyfin.get_current_user with
      | Except.ok u => gccAfterUsers svc min_watch_age_days collect_episode_data [u]
      | Except.error _ => Except.error ([], [], [])

/-- `CleanupService.get_cleanup_candidates` (cleanup.py lines 326–505): the
blanket `except Exception` handler logs the fault and returns the lists
built so far, so the caller always receives an ordinary triple. -/
def get_cleanup_candidates (svc : CleanupService) (min_watch_percentage : ℚ := 4/5)
    (min_watch_age_days : Option Int := none) (collect_episode_data : Bool := false) :
    List MovieEntry × List SeriesEntry × List EpisodeEntry :=
  match gccBody svc min_watch_percentage min_watch_age_days collect_episode_data with
  | Except.ok t => t
  | Except.error t => t

/-- The results dictionary of `execute_cleanup` (cleanup.py lines 518–526). -/
structure CleanupResults where
  movies_deleted : Nat := 0
  movies_failed : Nat := 0
  series_deleted : Nat := 0
  series_failed : Nat := 0
  episodes_deleted : Nat := 0
  episodes_failed : Nat := 0
  errors : List (List Char) := []
deriving DecidableEq

/-- Python `f"{i:02d}"`: decimal representation zero-padded to width two
(the sign counts toward the width). -/
def pad2 (i : Int) : List Char :=
  match i with
  | Int.ofNat n =>
      let d := Nat.toDigits 10 n
      if d.length < 2 then '0' :: d else d
  | Int.negSucc n => '-' :: Nat.toDigits 10 (n + 1)

/-- `season_str` of the episode-deletion loop (cleanup.py lines 551–555). -/
def seasonStr : Option Int → List Char
  | some n => 'S' :: pad2 n
  | none => "S??".data

/-- `episode_str` of the episode-deletion loop (cleanup.py lines 556–560). -/
def episodeStr : Option Int → List Char
  | some n => 'E' :: pad2 n
  | none => "E??".data

/-- One episode of the episode-deletion loop (cleanup.py lines 545–587).
`delete_item`'s boolean result is ignored by the source; a fault from either
call is caught per episode, appending one error string and counting a
failure, while a non-success (`False`) result from
`set_single_episode_monitored` only logs a warning and still counts the
episode as deleted. -/
def episodeItemStep (svc : CleanupService) (sonarr : SonarrEnv) (dry_run : Bool)
    (series_title : List Char) (res : CleanupResults) (episode : MatchedEpisode) :
    CleanupResults :=
  let episode_label := series_title ++ ' ' ::
    (seasonStr episode.season_number ++ episodeStr episode.episode_number)
  if dry_run then { res with episodes_deleted := res.episodes_deleted + 1 }
  else
    match svc.jellyfin.delete_item episode.jellyfin_episode.Id with
    | Except.error msg =>
        { res with
            errors := res.errors ++
              ["Error deleting episode ".data ++ episode_label ++ ": ".data ++ msg],
            episodes_failed := res.episodes_failed + 1 }
    | Except.ok _ =>
        match sonarr.set_single_episode_monitored episode.sonarr_episode.id false with
        | Except.error msg =>
            { res with
                errors := res.errors ++
                  ["Error deleting episode ".data ++ episode_label ++ ": ".data ++ msg],
                episodes_failed := res.episodes_failed + 1 }
        | Except.ok _unmonitored =>
            { res with episodes_deleted := res.episodes_deleted + 1 }

/-- One series of the episode-deletion loop (cleanup.py lines 539–544). -/
def episodeSeriesStep (svc : CleanupService) (sonarr : SonarrEnv) (dry_run : Bool)
    (res : CleanupResults) (series_entry : EpisodeEntry) : CleanupResults :=
  let series_title := series_entry.jellyfin_series.Name.getD
    (series_entry.sonarr_series.title.getD "Unknown".data)
  series_entry.episodes.foldl (episodeItemStep svc sonarr dry_run series_title) res

/-- One movie of the movie-deletion loop (cleanup.py lines 591–617): a
`False` result counts a failure without an error string; a fault counts a
failure and appends one error string naming the movie. -/
def movieDelStep (radarr : RadarrEnv) (delete_files add_exclusion dry_run : Bool)
    (res : CleanupResults) (movie_data : MovieEntry) : CleanupResults :=
  let movie_id := movie_data.radarr_item.id
  let movie_title := movie_data.radarr_item.title.getD "Unknown".data
  if dry_run then { res with movies_deleted := res.movies_deleted + 1 }
  else
    match radarr.delete_movie movie_id delete_files add_exclusion with
    | Except.ok true => { res with movies_deleted := res.movies_deleted + 1 }
    | Except.ok false => { res with movies_failed := res.movies_failed + 1 }
    | Except.error msg =>
        { res with
            errors := res.errors ++
              ["Error deleting movie ".data ++ movie_title ++ ": ".data ++ msg],
            movies_failed := res.movies_failed + 1 }

/-- One series of the series-deletion loop (cleanup.py lines 621–647). -/
def seriesDelStep (sonarr : SonarrEnv) (delete_files add_exclusion dry_run : Bool)
    (res : CleanupResults) (series_data : SeriesEntry) : CleanupResults :=
  let series_id := series_data.sonarr_item.id
  let series_title := series_data.sonarr_item.title.getD "Unknown".data
  if dry_run then { res with series_deleted := res.series_deleted + 1 }
  else
    match sonarr.delete_series series_id delete_files add_exclusion with
    | Except.ok true => { res with series_deleted := res.series_deleted + 1 }
    | Except.ok false => { res with series_failed := res.series_failed + 1 }
    | Except.error msg =>
        { res with
            errors := res.errors ++
              ["Error deleting series ".data ++ series_title ++ ": ".data ++ msg],
            series_failed := res.series_failed + 1 }

/-- `CleanupService.execute_cleanup` (cleanup.py lines 507–649).  The
episode section runs only when `delete_episodes` is set and `episode_series`
is truthy (neither `None` nor empty) and Sonarr is available (the
`elif not self.jellyfin` guard can never fire since the constructor requires
a Jellyfin client).  Order: episodes, then movies, then series. -/
def execute_cleanup (svc : CleanupService) (movies : List MovieEntry)
    (series : List SeriesEntry) (episode_series : Option (List EpisodeEntry) := none)
    (delete_files : Bool := true) (add_exclusion : Bool := false)
    (dry_run : Bool := true) (delete_episodes : Bool := false) : CleanupResults :=
  let results : CleanupResults := {}
  let results :=
    if delete_episodes && (match episode_series with
        | some (_ :: _) => true
        | _ => false) then
      match svc.sonarr with
      | none => results
      | some sonarr =>
          (episode_series.getD []).foldl (episodeSeriesStep svc sonarr dry_run) results
    else results
  let results :=
    match svc.radarr with
    | none => results
    | some radarr =>
        movies.foldl (movieDelStep radarr delete_files add_exclusion dry_run) results
  match svc.sonarr with
  | none => results
  | some sonarr =>
      series.foldl (seriesDelStep sonarr delete_files add_exclusion dry_run) results

/-- The value the caller sees from a computation whose exception handler
returns the same type as the normal path. -/
def exceptJoin {α : Type} : Except α α → α
  | Except.ok a => a
  | Except.error a => a

/-- A fixed wall clock for the sample runs below. -/
def sampleCutoff : Int → PyDateTime := fun _ => ⟨2024, 5, 2, 0, 0, 0, 0⟩

/-- A Jellyfin backend with no watched content and two calm users. -/
def quietJellyfin : JellyfinEnv where
  get_users := Except.ok [⟨"u1".data⟩]
  get_current_user := Except.ok ⟨"u1".data⟩
  get_watched_movies := fun _ => Except.ok []
  get_watched_series := fun _ => Except.ok []
  get_watched_episodes_for_series := fun _ _ => Except.ok []
  get_favorite_episodes_for_series := fun _ _ => Except.ok []
  get_favorite_seasons_for_series := fun _ _ => Except.ok []
  delete_item := fun _ => Except.ok true

/-- Movie `m1` as reported by a viewer who favorited it. -/
def xFav : JfItem :=
  { Id := some "m1".data, Name := some "abc".data,
    UserData := some { IsFavorite := true } }

/-- The same movie `m1` as reported by a second viewer who did not. -/
def xPlain : JfItem :=
  { Id := some "m1".data, Name := some "abc".data,
    UserData := some { IsFavorite := false } }

/-- A Radarr catalog entry with the same title as `m1`. -/
def entryAbc : CatalogEntry := { id := some 7, title := some "abc".data }

/-- Radarr backend holding exactly `entryAbc`. -/
def radarrAbc : RadarrEnv where
  get_movies := Except.ok [entryAbc]
  delete_movie := fun _ _ _ => Except.ok true

/-- Scenario for the deduplication/favorite interaction: viewer `u1` reports
`m1` as a favorite, viewer `u2` (iterated later) reports it without the
flag. -/
def svcDedup : CleanupService where
  jellyfin :=
    { quietJellyfin with
        get_users := Except.ok [⟨"u1".data⟩, ⟨"u2".data⟩],
        get_watched_movies := fun uid =>
          if uid = "u1".data then Except.ok [xFav] else Except.ok [xPlain] }
  radarr := some radarrAbc
  cutoff := sampleCutoff

/-- The movie-cleanup entry `svcDedup` produces. -/
def dedupMovieEntry : MovieEntry :=
  { jellyfin_item := xPlain, radarr_item := entryAbc,
    similarity_score := calculate_similarity ("abc".data) ("abc".data),
    in_qbittorrent := false }

/-- A watched series and one watched, non-favorited episode of it. -/
def seriesS : JfItem := { Id := some "s1".data, Name := some "abc".data }

/-- A watched episode S01E02 of `seriesS`. -/
def epE : JfItem :=
  { Id := some "e1".data, ParentIndexNumber := some 1, IndexNumber := some 2 }

/-- The Sonarr episode record matching `epE`. -/
def sonEp : SonarrEpisode := { id := some 11, seasonNumber := some 1, episodeNumber := some 2 }

/-- Sonarr backend tracking `entryAbc` as a series with one episode. -/
def sonarrAbc : SonarrEnv where
  get_series := Except.ok [entryAbc]
  get_episodes := fun _ => Except.ok [sonEp]
  is_series_fully_watched := fun _ => Except.ok true
  delete_series := fun _ _ _ => Except.ok true
  set_single_episode_monitored := fun _ _ => Except.ok true

/-- Scenario for the series/episode-candidate interaction: one fully watched
series with no favorites anywhere and one matched watched episode. -/
def svcSeries : CleanupService where
  jellyfin :=
    { quietJellyfin with
        get_watched_series := fun _ => Except.ok [seriesS],
        get_watched_episodes_for_series := fun _ _ => Except.ok [epE] }
  sonarr := some sonarrAbc
  cutoff := sampleCutoff

/-- The whole-series candidate `svcSeries` produces. -/
def seriesEntryVal : SeriesEntry :=
  { jellyfin_item := seriesS, sonarr_item := entryAbc,
    similarity_score := calculate_similarity ("abc".data) ("abc".data),
    fully_downloaded := true, in_qbittorrent := false, favorite_episodes := false }

/-- The episode-cleanup entry `svcSeries` produces for the same series. -/
def episodeEntryVal : EpisodeEntry :=
  { jellyfin_series := seriesS, sonarr_series := entryAbc,
    similarity_score := calculate_similarity ("abc".data) ("abc".data),
    episodes := [{ jellyfin_episode := epE, sonarr_episode := sonEp,
                   season_number := some 1, episode_number := some 2 }],
    in_qbittorrent := false }

/-- A Radarr backend whose catalog fetch raises. -/
def radarrFault : RadarrEnv where
  get_movies := Except.error "connection refused".data
  delete_movie := fun _ _ _ => Except.ok true

/-- Scenario for the catalog-fetch fault: one watched movie, Radarr
unreachable. -/
def svcRadarrFault : CleanupService where
  jellyfin := { quietJellyfin with get_watched_movies := fun _ => Except.ok [xPlain] }
  radarr := some radarrFault
  cutoff := sampleCutoff

/-- A Radarr backend whose deletion call reports non-success (`False`) for
every movie. -/
def radarrRefuses : RadarrEnv where
  get_movies := Except.ok []
  delete_movie := fun _ _ _ => Except.ok false

/-- A Radarr backend whose deletion call raises for movie `2` and succeeds
for the others. -/
def radarrBoom : RadarrEnv where
  get_movies := Except.ok []
  delete_movie := fun i _ _ =>
    if i = some 2 then Except.error ("boom".data) else Except.ok true

/-- A service wired to `radarrRefuses`. -/
def svcRefuses : CleanupService where
  jellyfin := quietJellyfin
  radarr := some radarrRefuses
  cutoff := sampleCutoff

/-- A service wired to `radarrBoom`. -/
def svcBoom : CleanupService where
  jellyfin := quietJellyfin
  radarr := some radarrBoom
  cutoff := sampleCutoff

/-- A movie-cleanup entry handed to the executor in the deletion
scenarios. -/
def movieEntryOf (i : Int) (t : List Char) : MovieEntry :=
  { jellyfin_item := { Id := some t, Name := some t },
    radarr_item := { id := some i, title := some t },
    similarity_score := 1,
    in_qbittorrent := false }

/-- A Sonarr backend whose unmonitor call reports non-success (`False`). -/
def sonarrMonWarn : SonarrEnv where
  get_series := Except.ok []
  get_episodes := fun _ => Except.ok []
  is_series_fully_watched := fun _ => Except.ok true
  delete_series := fun _ _ _ => Except.ok true
  set_single_episode_monitored := fun _ _ => Except.ok false

/-- A service wired to `sonarrMonWarn`. -/
def svcMonWarn : CleanupService where
  jellyfin := quietJellyfin
  sonarr := some sonarrMonWarn
  cutoff := sampleCutoff

/-- The single matched episode of the unmonitor-warning scenario. -/
def epWarn : MatchedEpisode :=
  { jellyfin_episode := { Id := some ("e1".data), Name := some ("ep".data) },
    sonarr_episode := { id := some 11, seasonNumber := some 1, episodeNumber := some 2 },
    season_number := some 1,
    episode_number := some 2 }

/-- The episode-cleanup entry of the unmonitor-warning scenario. -/
def entryWarn : EpisodeEntry :=
  { jellyfin_series := { Id := some ("s1".data), Name := some ("show".data) },
    sonarr_series := { id := some 9, title := some ("show".data) },
    similarity_score := 1,
    episodes := [epWarn],
    in_qbittorrent := false }

/-! ## Theorems -/

theorem char_toNat_ofNat (n : Nat) (h : n < 55296) : (Char.ofNat n).toNat = n := by
  have hv : n.isValidChar := Or.inl (by omega)
  simp [Char.ofNat, hv, Char.ofNatAux, Char.toNat, UInt32.toNat, BitVec.toNat_ofNatLt]

theorem char_eq_iff (a b : Char) : (a = b) ↔ a.toNat = b.toNat :=
  ⟨fun h => by rw [h], fun h => Char.ext (UInt32.ext (by simpa [Char.toNat, UInt32.toNat] using h))⟩

theorem pySpace_pyLower (c : Char) : pySpace (pyLower c) = pySpace c := by
  unfold pySpace pyLower
  split
  · next h =>
      rw [char_toNat_ofNat _ (by omega)]
      rw [Bool.eq_iff_iff]
      simp only [Bool.or_eq_true, decide_eq_true_eq]
      omega
  · rfl

theorem pyWord_pyLower (c : Char) : pyWord (pyLower c) = pyWord c := by
  unfold pyWord pyLower
  split
  · next h =>
      rw [char_toNat_ofNat _ (by omega)]
      rw [Bool.eq_iff_iff]
      simp only [Bool.or_eq_true, Bool.and_eq_true, decide_eq_true_eq]
      omega
  · rfl

theorem pyLower_idem (c : Char) : pyLower (pyLower c) = pyLower c := by
  unfold pyLower
  split
  · next h =>
      rw [if_neg]
      rw [char_toNat_ofNat _ (by omega)]
      omega
  · rfl

theorem pyWord_not_space (c : Char) (h : pyWord c = true) : pySpace c = false := by
  unfold pyWord at h
  unfold pySpace
  simp only [Bool.or_eq_true, Bool.and_eq_true, decide_eq_true_eq] at h
  simp only [Bool.or_eq_false_iff, decide_eq_false_iff_not]
  omega

theorem mem_replaceSpecials {c : Char} {s : List Char} (h : c ∈ replaceSpecials s) :
    pyWord c || pySpace c := by
  unfold replaceSpecials at h
  obtain ⟨d, _, hd⟩ := List.mem_map.mp h
  by_cases hw : (pyWord d || pySpace d : Bool)
  · rw [if_pos hw] at hd; rwa [← hd]
  · rw [if_neg hw] at hd; subst hd; rfl

theorem mem_collapseWsAux {c : Char} :
    ∀ (b : Bool) (s : List Char), (∀ d ∈ s, pyWord d || pySpace d) →
      c ∈ collapseWsAux b s → pyWord c = true ∨ c = ' ' := by
  intro b s
  induction s generalizing b with
  | nil => intro _ h; simp [collapseWsAux] at h
  | cons d rest ih =>
      intro hcl hmem
      have hd := hcl d (List.mem_cons_self d rest)
      have hrest : ∀ e ∈ rest, pyWord e || pySpace e := fun e he => hcl e (List.mem_cons_of_mem d he)
      unfold collapseWsAux at hmem
      by_cases hs : pySpace d
      · rw [if_pos hs] at hmem
        cases b with
        | true =>
            rw [if_pos rfl] at hmem
            exact ih true hrest hmem
        | false =>
            rw [if_neg (by decide)] at hmem
            rcases List.mem_cons.mp hmem with h | h
            · exact Or.inr h
            · exact ih true hrest h
      · rw [if_neg hs] at hmem
        simp only [List.mem_cons] at hmem
        rcases hmem with h | h
        · subst h
          simp only [hs, Bool.or_false] at hd
          exact Or.inl hd
        · exact ih false hrest h

theorem mem_rstripWs {c : Char} : ∀ {l : List Char}, c ∈ rstripWs l → c ∈ l := by
  intro l
  induction l with
  | nil => intro h; exact absurd h (by unfold rstripWs; exact List.not_mem_nil c)
  | cons d t ih =>
      intro h
      unfold rstripWs at h
      rcases hr : rstripWs t with _ | ⟨e, r⟩ <;> rw [hr] at h
      · by_cases hs : pySpace d
        · rw [if_pos hs] at h; exact absurd h (List.not_mem_nil c)
        · rw [if_neg hs] at h
          simp only [List.mem_singleton] at h
          subst h; exact List.mem_cons_self c t
      · rcases List.mem_cons.mp h with h | h
        · subst h; exact List.mem_cons_self c t
        · have hc : c ∈ rstripWs t := by rw [hr]; exact h
          exact List.mem_cons_of_mem d (ih hc)

theorem headIsSpace_dropWhile (l : List Char) : headIsSpace (l.dropWhile pySpace) = false := by
  induction l with
  | nil => rfl
  | cons c t ih =>
      rw [List.dropWhile_cons]
      by_cases hs : pySpace c
      · rw [if_pos (by simp [hs])]; exact ih
      · rw [if_neg (by simp [hs])]
        simp [headIsSpace, hs]

theorem headIsSpace_rstripWs (l : List Char) (h : headIsSpace l = false) :
    headIsSpace (rstripWs l) = false := by
  cases l with
  | nil => exact h
  | cons c t =>
      unfold rstripWs
      rcases rstripWs t with _ | ⟨e, r⟩
      · by_cases hs : pySpace c
        · rw [if_pos hs]; rfl
        · rw [if_neg hs]; exact h
      · exact h

theorem lastIsSpace_rstripWs (l : List Char) : lastIsSpace (rstripWs l) = false := by
  induction l with
  | nil => rfl
  | cons c t ih =>
      unfold rstripWs
      rcases hr : rstripWs t with _ | ⟨e, r⟩
      · by_cases hs : pySpace c
        · rw [if_pos hs]; rfl
        · rw [if_neg hs]; simp [lastIsSpace, hs]
      · rw [hr] at ih
        simpa [lastIsSpace] using ih

theorem noDouble_tail {c : Char} {l : List Char} (h : noDoubleSpace (c :: l) = true) :
    noDoubleSpace l = true := by
  unfold noDoubleSpace at h
  rw [Bool.and_eq_true] at h
  exact h.2

theorem noDouble_head {c : Char} {l : List Char} (h : noDoubleSpace (c :: l) = true)
    (hc : pySpace c = true) : headIsSpace l = false := by
  unfold noDoubleSpace at h
  rw [Bool.and_eq_true] at h
  obtain ⟨h1, h2⟩ := h
  rw [hc] at h1
  simpa using h1

theorem noDouble_dropWhile (l : List Char) (h : noDoubleSpace l = true) :
    noDoubleSpace (l.dropWhile pySpace) = true := by
  induction l with
  | nil => exact h
  | cons c t ih =>
      rw [List.dropWhile_cons]
      by_cases hs : pySpace c
      · rw [if_pos (by simp [hs])]; exact ih (noDouble_tail h)
      · rw [if_neg (by simp [hs])]; exact h

theorem noDouble_rstripWs (l : List Char) (h : noDoubleSpace l = true) :
    noDoubleSpace (rstripWs l) = true := by
  induction l with
  | nil => exact h
  | cons c t ih =>
      unfold rstripWs
      rcases hr : rstripWs t with _ | ⟨e, r⟩
      · by_cases hs : pySpace c
        · rw [if_pos hs]; rfl
        · rw [if_neg hs]; simp [noDoubleSpace, headIsSpace]
      · have ht : noDoubleSpace (rstripWs t) = true := ih (noDouble_tail h)
        rw [hr] at ht
        unfold noDoubleSpace
        rw [Bool.and_eq_true]
        refine ⟨?_, ht⟩
        by_cases hs : pySpace c
        · have hht : headIsSpace t = false := noDouble_head h hs
          have : headIsSpace (rstripWs t) = false := headIsSpace_rstripWs t hht
          rw [hr] at this
          simp [headIsSpace] at this
          simp [headIsSpace, this]
        · simp [hs]

theorem collapse_props (s : List Char) :
    headIsSpace (collapseWsAux true s) = false ∧
    noDoubleSpace (collapseWsAux true s) = true ∧
    noDoubleSpace (collapseWsAux false s) = true := by
  induction s with
  | nil => exact ⟨rfl, rfl, rfl⟩
  | cons c rest ih =>
      obtain ⟨ih1, ih2, ih3⟩ := ih
      by_cases hs : pySpace c
      · refine ⟨?_, ?_, ?_⟩
        · unfold collapseWsAux
          rw [if_pos hs, if_pos rfl]
          exact ih1
        · unfold collapseWsAux
          rw [if_pos hs, if_pos rfl]
          exact ih2
        · unfold collapseWsAux
          rw [if_pos hs, if_neg (by decide)]
          unfold noDoubleSpace
          simp [ih1, ih2]
      · refine ⟨?_, ?_, ?_⟩
        · unfold collapseWsAux
          rw [if_neg hs]
          simp [headIsSpace, hs]
        · unfold collapseWsAux
          rw [if_neg hs]
          unfold noDoubleSpace
          simp [hs, ih3]
        · unfold collapseWsAux
          rw [if_neg hs]
          unfold noDoubleSpace
          simp [hs, ih3]

theorem dropWhile_eq_self_of_head {l : List Char} (h : headIsSpace l = false) :
    l.dropWhile pySpace = l := by
  cases l with
  | nil => rfl
  | cons c t =>
      rw [List.dropWhile_cons, if_neg]
      simp only [headIsSpace] at h
      simp [h]

theorem rstripWs_eq_self : ∀ {l : List Char}, lastIsSpace l = false → rstripWs l = l := by
  intro l
  induction l with
  | nil => intro _; rfl
  | cons c t ih =>
      intro h
      unfold rstripWs
      cases t with
      | nil =>
          simp only [lastIsSpace] at h
          simp [rstripWs, h]
      | cons d t2 =>
          simp only [lastIsSpace] at h
          rw [ih h]

theorem collapse_eq_self : ∀ s : List Char, (∀ c ∈ s, pyWord c = true ∨ c = ' ') →
    noDoubleSpace s = true →
    collapseWsAux false s = s ∧ (headIsSpace s = false → collapseWsAux true s = s) := by
  intro s
  induction s with
  | nil => intro _ _; exact ⟨rfl, fun _ => rfl⟩
  | cons c rest ih =>
      intro hcl hnd
      have hrest : ∀ c ∈ rest, pyWord c = true ∨ c = ' ' :=
        fun e he => hcl e (List.mem_cons_of_mem c he)
      obtain ⟨ihf, iht⟩ := ih hrest (noDouble_tail hnd)
      by_cases hs : pySpace c
      · have hc : c = ' ' := by
          rcases hcl c (List.mem_cons_self c rest) with hw | hb
          · exact absurd hs (by simp [pyWord_not_space c hw])
          · exact hb
        constructor
        · unfold collapseWsAux
          rw [if_pos hs, if_neg (by decide)]
          have hhead : headIsSpace rest = false := noDouble_head hnd hs
          rw [iht hhead, hc]
        · intro hh
          simp only [headIsSpace] at hh
          rw [hs] at hh
          exact absurd hh (by decide)
      · constructor
        · unfold collapseWsAux
          rw [if_neg hs, ihf]
        · intro _
          unfold collapseWsAux
          rw [if_neg hs, ihf]

theorem replaceSpecials_eq_self : ∀ {s : List Char}, (∀ c ∈ s, pyWord c || pySpace c) →
    replaceSpecials s = s := by
  intro s
  induction s with
  | nil => intro _; rfl
  | cons c t ih =>
      intro h
      unfold replaceSpecials
      rw [List.map_cons]
      have hc := h c (List.mem_cons_self c t)
      rw [if_pos hc]
      have := ih (fun e he => h e (List.mem_cons_of_mem c he))
      unfold replaceSpecials at this
      rw [this]

theorem stripTrailingParen_eq_self {s : List Char} (h : ')' ∉ s) :
    stripTrailingParen s = s := by
  unfold stripTrailingParen
  rcases hrev : s.reverse with _ | ⟨c, u⟩
  · rfl
  · have hc : c ≠ ')' := by
      intro hcp
      apply h
      rw [← List.mem_reverse, hrev, hcp]
      exact List.mem_cons_self _ _
    split
    · next heq => exact absurd (List.cons_eq_cons.mp heq).1 hc
    · rfl

theorem map_pyLower_eq_self : ∀ {l : List Char}, (∀ c ∈ l, pyLower c = c) →
    l.map pyLower = l := by
  intro l
  induction l with
  | nil => intro _; rfl
  | cons c t ih =>
      intro h
      rw [List.map_cons, h c (List.mem_cons_self c t), ih (fun e he => h e (List.mem_cons_of_mem c he))]

theorem mem_dropWhile {c : Char} : ∀ {l : List Char}, c ∈ l.dropWhile pySpace → c ∈ l := by
  intro l
  induction l with
  | nil => intro h; exact h
  | cons d t ih =>
      intro h
      rw [List.dropWhile_cons] at h
      by_cases hs : pySpace d
      · rw [if_pos (by simp [hs])] at h
        exact List.mem_cons_of_mem d (ih h)
      · rw [if_neg (by simp [hs])] at h
        exact h

theorem headIsSpace_map_pyLower (l : List Char) :
    headIsSpace (l.map pyLower) = headIsSpace l := by
  cases l with
  | nil => rfl
  | cons c t => simp [headIsSpace, pySpace_pyLower]

theorem lastIsSpace_map_pyLower : ∀ l : List Char, lastIsSpace (l.map pyLower) = lastIsSpace l := by
  intro l
  induction l with
  | nil => rfl
  | cons c t ih =>
      cases t with
      | nil => simp [lastIsSpace, pySpace_pyLower]
      | cons d t2 =>
          rw [List.map_cons, List.map_cons]
          show lastIsSpace (pyLower d :: t2.map pyLower) = lastIsSpace (d :: t2)
          rw [← List.map_cons]
          exact ih

theorem noDouble_map_pyLower : ∀ l : List Char, noDoubleSpace (l.map pyLower) = noDoubleSpace l := by
  intro l
  induction l with
  | nil => rfl
  | cons c t ih =>
      rw [List.map_cons]
      unfold noDoubleSpace
      rw [pySpace_pyLower, headIsSpace_map_pyLower, ih]

theorem normalize_chars (t : List Char) :
    ∀ c ∈ normalize_title t, pyWord c = true ∨ c = ' ' := by
  intro c hc
  unfold normalize_title at hc
  obtain ⟨d, hd, hcd⟩ := List.mem_map.mp hc
  unfold pyStrip at hd
  have hd2 : d ∈ collapseWs (replaceSpecials (stripTrailingParen (stripArticle t))) :=
    mem_dropWhile (mem_rstripWs hd)
  unfold collapseWs at hd2
  have := mem_collapseWsAux false _ (fun e he => mem_replaceSpecials he) hd2
  rcases this with hw | hb
  · left; rw [← hcd, pyWord_pyLower, hw]
  · right; rw [← hcd, hb]; decide

theorem normalize_head (t : List Char) : headIsSpace (normalize_title t) = false := by
  unfold normalize_title pyStrip
  rw [headIsSpace_map_pyLower]
  exact headIsSpace_rstripWs _ (headIsSpace_dropWhile _)

theorem normalize_last (t : List Char) : lastIsSpace (normalize_title t) = false := by
  unfold normalize_title pyStrip
  rw [lastIsSpace_map_pyLower]
  exact lastIsSpace_rstripWs _

theorem normalize_noDouble (t : List Char) : noDoubleSpace (normalize_title t) = true := by
  unfold normalize_title pyStrip
  rw [noDouble_map_pyLower]
  apply noDouble_rstripWs
  apply noDouble_dropWhile
  unfold collapseWs
  exact (collapse_props _).2.2

theorem normalize_lower_chars (t : List Char) :
    ∀ c ∈ normalize_title t, pyLower c = c := by
  intro c hc
  unfold normalize_title at hc
  obtain ⟨d, _, hcd⟩ := List.mem_map.mp hc
  rw [← hcd]
  exact pyLower_idem d

/-- C5 (amended): the output of `normalize_title` is always fully lower-case
(every character is fixed by `pyLower`), and `normalize_title` is idempotent
on every title whose normalized form does not itself begin with an article
(`the`/`a`/`an`, case-insensitively) followed by whitespace.  The original
claim of unconditional idempotence fails, because a second application strips
a fresh leading article from the first application's output (see
`normalize_title_not_idempotent`). -/
theorem normalize_title_lowercase_and_conditional_idem (t : List Char) :
    (∀ c ∈ normalize_title t, pyLower c = c) ∧
    (startsWithArticleWs (normalize_title t) = false →
      normalize_title (normalize_title t) = normalize_title t) := by
  refine ⟨normalize_lower_chars t, ?_⟩
  intro hart
  have hchars := normalize_chars t
  have hnd : noDoubleSpace (normalize_title t) = true := normalize_noDouble t
  have hhead : headIsSpace (normalize_title t) = false := normalize_head t
  have hlast : lastIsSpace (normalize_title t) = false := normalize_last t
  have h1 : stripArticle (normalize_title t) = normalize_title t := by
    unfold stripArticle
    unfold startsWithArticleWs at hart
    rcases ha : articleSplit (normalize_title t) with _ | v
    · rfl
    · rw [ha] at hart
      exact absurd hart (by simp)
  have hparen : ')' ∉ normalize_title t := by
    intro hmem
    rcases hchars ')' hmem with hw | hb
    · exact absurd hw (by decide)
    · exact absurd hb (by decide)
  have h2 : stripTrailingParen (normalize_title t) = normalize_title t :=
    stripTrailingParen_eq_self hparen
  have h3 : replaceSpecials (normalize_title t) = normalize_title t := by
    apply replaceSpecials_eq_self
    intro c hc
    rcases hchars c hc with hw | hb
    · simp [hw]
    · subst hb; decide
  have h4 : collapseWs (normalize_title t) = normalize_title t := by
    unfold collapseWs
    exact (collapse_eq_self _ hchars hnd).1
  have h5 : pyStrip (normalize_title t) = normalize_title t := by
    unfold pyStrip
    rw [dropWhile_eq_self_of_head hhead, rstripWs_eq_self hlast]
  have h6 : (normalize_title t).map pyLower = normalize_title t :=
    map_pyLower_eq_self (normalize_lower_chars t)
  conv_lhs => rw [normalize_title]
  rw [h1, h2, h3, h4, h5, h6]

/-- C5 (counterexample): `normalize_title` is not idempotent.  On
`"The A Team"` a first pass yields `"a team"`, and a second pass strips the
now-leading article `"a"`, yielding `"team"`. -/
theorem normalize_title_not_idempotent :
    normalize_title (normalize_title ("The A Team".data)) ≠
      normalize_title ("The A Team".data) ∧
    normalize_title ("The A Team".data) = "a team".data ∧
    normalize_title ("a team".data) = "team".data := by
  refine ⟨?_, by decide, by decide⟩
  decide

/-- Witness for `normalize_title_lowercase_and_conditional_idem`: on
`"Matrix (1999)"` the normalized form `"matrix"` starts with no article, so
the amended idempotence applies. -/
theorem normalize_title_idem_witness :
    startsWithArticleWs (normalize_title ("Matrix (1999)".data)) = false ∧
    normalize_title (normalize_title ("Matrix (1999)".data)) =
      normalize_title ("Matrix (1999)".data) :=
  ⟨by decide, (normalize_title_lowercase_and_conditional_idem _).2 (by decide)⟩

theorem cpl_le_left : ∀ x y : List Char, cpl x y ≤ x.length := by
  intro x
  induction x with
  | nil => intro y; cases y <;> simp [cpl]
  | cons c t ih =>
      intro y
      cases y with
      | nil => simp [cpl]
      | cons d u =>
          unfold cpl
          by_cases h : c = d
          · rw [if_pos h]
            simpa using ih u
          · rw [if_neg h]
            simp

theorem cpl_le_right : ∀ x y : List Char, cpl x y ≤ y.length := by
  intro x
  induction x with
  | nil => intro y; cases y <;> simp [cpl]
  | cons c t ih =>
      intro y
      cases y with
      | nil => simp [cpl]
      | cons d u =>
          unfold cpl
          by_cases h : c = d
          · rw [if_pos h]
            simpa using ih u
          · rw [if_neg h]
            simp

theorem cpl_self : ∀ x : List Char, cpl x x = x.length := by
  intro x
  induction x with
  | nil => rfl
  | cons c t ih => simp [cpl, ih]

theorem mem_allIJ {la lb : Nat} {p : Nat × Nat} (h : p ∈ allIJ la lb) :
    p.1 < la ∧ p.2 < lb := by
  unfold allIJ at h
  rw [List.mem_flatMap] at h
  obtain ⟨i, hi, hp⟩ := h
  rw [List.mem_map] at hp
  obtain ⟨j, hj, hp⟩ := hp
  rw [← hp]
  exact ⟨List.mem_range.mp hi, List.mem_range.mp hj⟩

theorem foldl_blockStep_cases (a b : List Char) :
    ∀ (l : List (Nat × Nat)) (init : Nat × Nat × Nat),
      l.foldl (blockStep a b) init = init ∨
      ∃ p ∈ l, l.foldl (blockStep a b) init = (p.1, p.2, cpl (a.drop p.1) (b.drop p.2)) := by
  intro l
  induction l with
  | nil => intro init; left; rfl
  | cons p t ih =>
      intro init
      rw [List.foldl_cons]
      rcases ih (blockStep a b init p) with h | ⟨q, hq, h⟩
      · by_cases hk : cpl (a.drop p.1) (b.drop p.2) > init.2.2
        · right
          refine ⟨p, List.mem_cons_self p t, ?_⟩
          rw [h]
          unfold blockStep
          rw [if_pos hk]
        · left
          rw [h]
          unfold blockStep
          rw [if_neg hk]
      · right
        exact ⟨q, List.mem_cons_of_mem p hq, h⟩

theorem bestBlock_cases (a b : List Char) :
    bestBlock a b = (0, 0, 0) ∨
    ∃ p ∈ allIJ a.length b.length,
      bestBlock a b = (p.1, p.2, cpl (a.drop p.1) (b.drop p.2)) :=
  foldl_blockStep_cases a b _ _

theorem bestBlock_valid (a b : List Char) :
    (bestBlock a b).1 + (bestBlock a b).2.2 ≤ a.length ∧
    (bestBlock a b).2.1 + (bestBlock a b).2.2 ≤ b.length := by
  rcases bestBlock_cases a b with h | ⟨p, hp, h⟩
  · rw [h]; simp
  · obtain ⟨h1, h2⟩ := mem_allIJ hp
    rw [h]
    have ha := (cpl_le_left (a.drop p.1) (b.drop p.2)).trans (by rw [List.length_drop])
    have hb := (cpl_le_right (a.drop p.1) (b.drop p.2)).trans (by rw [List.length_drop])
    exact ⟨by simp only []; omega, by simp only []; omega⟩

theorem foldl_blockStep_const (a b : List Char) :
    ∀ (l : List (Nat × Nat)) (best : Nat × Nat × Nat),
      (∀ p ∈ l, cpl (a.drop p.1) (b.drop p.2) ≤ best.2.2) →
      l.foldl (blockStep a b) best = best := by
  intro l
  induction l with
  | nil => intro best _; rfl
  | cons p t ih =>
      intro best hb
      rw [List.foldl_cons]
      have hstep : blockStep a b best p = best := by
        unfold blockStep
        rw [if_neg]
        exact Nat.not_lt.mpr (hb p (List.mem_cons_self p t))
      rw [hstep]
      exact ih best (fun q hq => hb q (List.mem_cons_of_mem p hq))

theorem bestBlock_self (a : List Char) (h : a ≠ []) : bestBlock a a = (0, 0, a.length) := by
  obtain ⟨n, hn⟩ : ∃ n, a.length = n + 1 :=
    ⟨a.length - 1, by have := List.length_pos.mpr h; omega⟩
  have hbound : ∀ (l : List (Nat × Nat)),
      l.foldl (blockStep a a) (0, 0, n + 1) = (0, 0, n + 1) := by
    intro l
    apply foldl_blockStep_const
    intro p _
    show cpl (a.drop p.1) (a.drop p.2) ≤ n + 1
    exact (cpl_le_left _ _).trans (by rw [List.length_drop]; omega)
  have hstep : blockStep a a (0, 0, 0) (0, 0) = (0, 0, n + 1) := by
    unfold blockStep
    simp only [List.drop_zero, cpl_self, hn]
    rw [if_pos (by show 0 < n + 1; omega)]
  unfold bestBlock allIJ
  rw [hn, List.range_succ_eq_map, List.flatMap_cons, List.foldl_append, List.map_cons,
    List.foldl_cons, hstep, hbound, hbound]

theorem matchesTotalF_nil : ∀ f : Nat, matchesTotalF f [] [] = 0 := by
  intro f
  cases f with
  | zero => rfl
  | succ g => rfl

theorem matchesTotalF_le : ∀ (fuel : Nat) (a b : List Char),
    matchesTotalF fuel a b ≤ a.length ∧ matchesTotalF fuel a b ≤ b.length := by
  intro fuel
  induction fuel with
  | zero => intro a b; exact ⟨Nat.zero_le _, Nat.zero_le _⟩
  | succ f ih =>
      intro a b
      have hEq : matchesTotalF (f + 1) a b =
          (if (bestBlock a b).2.2 = 0 then 0
           else (bestBlock a b).2.2
             + matchesTotalF f (a.take (bestBlock a b).1) (b.take (bestBlock a b).2.1)
             + matchesTotalF f (a.drop ((bestBlock a b).1 + (bestBlock a b).2.2))
                 (b.drop ((bestBlock a b).2.1 + (bestBlock a b).2.2))) := rfl
      rw [hEq]
      obtain ⟨hva, hvb⟩ := bestBlock_valid a b
      by_cases hk : (bestBlock a b).2.2 = 0
      · rw [if_pos hk]
        exact ⟨Nat.zero_le _, Nat.zero_le _⟩
      · rw [if_neg hk]
        obtain ⟨h1a, h1b⟩ := ih (a.take (bestBlock a b).1) (b.take (bestBlock a b).2.1)
        obtain ⟨h2a, h2b⟩ := ih (a.drop ((bestBlock a b).1 + (bestBlock a b).2.2))
          (b.drop ((bestBlock a b).2.1 + (bestBlock a b).2.2))
        rw [List.length_take] at h1a h1b
        rw [List.length_drop] at h2a h2b
        have hm1 := Nat.min_le_left (bestBlock a b).1 a.length
        have hm2 := Nat.min_le_left (bestBlock a b).2.1 b.length
        constructor <;> omega

theorem matchesTotal_self (a : List Char) : matchesTotal a a = a.length := by
  by_cases h : a = []
  · subst h; rfl
  · have hb := bestBlock_self a h
    have hEq : matchesTotal a a =
        (if (bestBlock a a).2.2 = 0 then 0
         else (bestBlock a a).2.2
           + matchesTotalF a.length (a.take (bestBlock a a).1) (a.take (bestBlock a a).2.1)
           + matchesTotalF a.length (a.drop ((bestBlock a a).1 + (bestBlock a a).2.2))
               (a.drop ((bestBlock a a).2.1 + (bestBlock a a).2.2))) := rfl
    rw [hEq, hb]
    rw [if_neg (by show ¬ a.length = 0; have := List.length_pos.mpr h; omega)]
    show a.length + matchesTotalF a.length (a.take 0) (a.take 0)
      + matchesTotalF a.length (a.drop (0 + a.length)) (a.drop (0 + a.length)) = a.length
    simp only [List.take_zero, Nat.zero_add, List.drop_length, matchesTotalF_nil]
    omega

theorem ratioQ_nonneg (a b : List Char) : 0 ≤ ratioQ a b := by
  unfold ratioQ
  split
  · norm_num
  · apply div_nonneg
    · positivity
    · positivity

theorem ratioQ_le_one (a b : List Char) : ratioQ a b ≤ 1 := by
  unfold ratioQ
  split
  · next h => exact le_refl 1
  · next h =>
      have hpos : (0 : ℚ) < (a.length : ℚ) + (b.length : ℚ) := by
        have : 0 < a.length + b.length := Nat.pos_of_ne_zero h
        exact_mod_cast this
      rw [div_le_one hpos]
      obtain ⟨h1, h2⟩ := matchesTotalF_le (a.length + 1) a b
      have : 2 * matchesTotal a b ≤ a.length + b.length := by
        unfold matchesTotal
        omega
      exact_mod_cast this

theorem ratioQ_self (a : List Char) : ratioQ a a = 1 := by
  unfold ratioQ
  split
  · rfl
  · next h =>
      rw [matchesTotal_self]
      have hne : (a.length : ℚ) ≠ 0 := by
        have : a.length ≠ 0 := by omega
        exact_mod_cast this
      field_simp
      ring

/-- C6 (amended): `calculate_similarity(a, a) = 1` for every string `a` (even
one whose normalized form is empty), and the result always lies in `[0, 1]`.
The symmetry conjunct of the original claim fails — see
`calculate_similarity_not_symmetric` — because the scorer's first-seen
tie-break between equally long matching blocks is orientation-dependent. -/
theorem calculate_similarity_refl_and_bounded (a b : List Char) :
    calculate_similarity a a = 1 ∧
    0 ≤ calculate_similarity a b ∧ calculate_similarity a b ≤ 1 :=
  ⟨ratioQ_self _, ratioQ_nonneg _ _, ratioQ_le_one _ _⟩

set_option maxRecDepth 4000 in
/-- C6 (counterexample): the scorer is not symmetric.  For `a = "abqcd"` and
`b = "cdabrcd"` (both fixed by normalization) the first-seen maximal block in
the `(a, b)` orientation is `"ab"`, after which `"cd"` also matches (4
matched characters, ratio `2/3`), while in the `(b, a)` orientation the
first-seen maximal block is `"cd"`, after which nothing matches (2 matched
characters, ratio `1/3`).  Verified against CPython's
`difflib.SequenceMatcher(None, ...).ratio()`. -/
theorem calculate_similarity_not_symmetric :
    calculate_similarity ("abqcd".data) ("cdabrcd".data) ≠
      calculate_similarity ("cdabrcd".data) ("abqcd".data) := by
  have h1 : normalize_title ("abqcd".data) = "abqcd".data := by decide
  have h2 : normalize_title ("cdabrcd".data) = "cdabrcd".data := by decide
  have m1 : matchesTotal ("abqcd".data) ("cdabrcd".data) = 4 := by decide
  have m2 : matchesTotal ("cdabrcd".data) ("abqcd".data) = 2 := by decide
  have l1 : ("abqcd".data).length = 5 := by decide
  have l2 : ("cdabrcd".data).length = 7 := by decide
  unfold calculate_similarity ratioQ
  rw [h1, h2, m1, m2, l1, l2]
  norm_num

theorem fmmLoop_inv (item : JfItem) (th : ℚ) (hth : 0 < th) :
    ∀ (l seen : List CatalogEntry) (best : Option CatalogEntry) (bs : ℚ),
      (match best with
       | none => bs = 0 ∧ ∀ e ∈ seen, totalScore item e < th
       | some m => bs = totalScore item m ∧ th ≤ bs ∧
           (∀ e ∈ seen, totalScore item e ≤ bs) ∧
           ∃ pre post, seen = pre ++ m :: post ∧ ∀ e ∈ pre, totalScore item e < bs) →
      (match fmmLoop item th l best bs with
       | none => ∀ e ∈ seen ++ l, totalScore item e < th
       | some m => th ≤ totalScore item m ∧
           (∀ e ∈ seen ++ l, totalScore item e ≤ totalScore item m) ∧
           ∃ pre post, seen ++ l = pre ++ m :: post ∧
             ∀ e ∈ pre, totalScore item e < totalScore item m) := by
  intro l
  induction l with
  | nil =>
      intro seen best bs hinv
      cases best with
      | none =>
          show ∀ e ∈ seen ++ [], totalScore item e < th
          rw [List.append_nil]
          exact hinv.2
      | some m =>
          obtain ⟨hbs, hle, hall, pre, post, hdec, hpre⟩ := hinv
          show th ≤ totalScore item m ∧ _ ∧ _
          rw [List.append_nil]
          subst hbs
          exact ⟨hle, hall, pre, post, hdec, hpre⟩
  | cons e rest ih =>
      intro seen best bs hinv
      show (match (if totalScore item e > bs ∧ totalScore item e ≥ th
          then fmmLoop item th rest (some e) (totalScore item e)
          else fmmLoop item th rest best bs) with
        | none => ∀ x ∈ seen ++ e :: rest, totalScore item x < th
        | some m => th ≤ totalScore item m ∧
            (∀ x ∈ seen ++ e :: rest, totalScore item x ≤ totalScore item m) ∧
            ∃ pre post, seen ++ e :: rest = pre ++ m :: post ∧
              ∀ x ∈ pre, totalScore item x < totalScore item m)
      have hsplit : seen ++ e :: rest = (seen ++ [e]) ++ rest := by
        rw [List.append_assoc]; rfl
      by_cases hc : totalScore item e > bs ∧ totalScore item e ≥ th
      · rw [if_pos hc]
        have hmono : ∀ x ∈ seen, totalScore item x < totalScore item e := by
          intro x hx
          cases best with
          | none => exact lt_of_lt_of_le (hinv.2 x hx) hc.2
          | some m => exact lt_of_le_of_lt (hinv.2.2.1 x hx) hc.1
        have hnewinv : totalScore item e = totalScore item e ∧
            th ≤ totalScore item e ∧
            (∀ x ∈ seen ++ [e], totalScore item x ≤ totalScore item e) ∧
            ∃ pre post, seen ++ [e] = pre ++ e :: post ∧
              ∀ x ∈ pre, totalScore item x < totalScore item e := by
          refine ⟨rfl, hc.2, ?_, seen, [], rfl, hmono⟩
          intro x hx
          rcases List.mem_append.mp hx with hx | hx
          · exact le_of_lt (hmono x hx)
          · rw [List.mem_singleton.mp hx]
        have := ih (seen ++ [e]) (some e) (totalScore item e) hnewinv
        rw [hsplit]
        exact this
      · rw [if_neg hc]
        cases best with
        | none =>
            obtain ⟨hbs, hseen⟩ := hinv
            subst hbs
            have hnewinv : (0 : ℚ) = 0 ∧ ∀ x ∈ seen ++ [e], totalScore item x < th := by
              refine ⟨rfl, ?_⟩
              intro x hx
              rcases List.mem_append.mp hx with hx | hx
              · exact hseen x hx
              · rw [List.mem_singleton.mp hx]
                by_contra hge
                push_neg at hge
                exact hc ⟨lt_of_lt_of_le hth hge, hge⟩
            have := ih (seen ++ [e]) none 0 hnewinv
            rw [hsplit]
            exact this
        | some m =>
            obtain ⟨hbs, hle, hall, pre, post, hdec, hpre⟩ := hinv
            have hnewinv : bs = totalScore item m ∧ th ≤ bs ∧
                (∀ x ∈ seen ++ [e], totalScore item x ≤ bs) ∧
                ∃ pre post, seen ++ [e] = pre ++ m :: post ∧
                  ∀ x ∈ pre, totalScore item x < bs := by
              refine ⟨hbs, hle, ?_, pre, post ++ [e], by rw [hdec]; simp, hpre⟩
              intro x hx
              rcases List.mem_append.mp hx with hx | hx
              · exact hall x hx
              · rw [List.mem_singleton.mp hx]
                by_contra hgt
                push_neg at hgt
                exact hc ⟨hgt, le_trans hle (le_of_lt hgt)⟩
            have := ih (seen ++ [e]) (some m) bs hnewinv
            rw [hsplit]
            exact this

/-- C7 (amended): for every positive threshold (in particular the default
`0.8` and every threshold used by the engine), `find_matching_movie` — and
`find_matching_series`, which runs the identical algorithm — returns an
entry of maximal total score (title similarity plus year bonus) among those
clearing the threshold, returns `none` when no entry clears it, and on an
exact tie returns the first-seen entry in catalog order (every earlier entry
scores strictly lower).  The original claim fails only for a non-positive
threshold, where an entry of score `0` "clears" the threshold but the
`total_score > best_score` comparison against the initial `best_score = 0`
rejects it — see `find_matching_movie_zero_threshold`. -/
theorem find_matching_spec (item : JfItem) (entries : List CatalogEntry) (th : ℚ)
    (hth : 0 < th) :
    find_matching_series item entries th = find_matching_movie item entries th ∧
    (match find_matching_movie item entries th with
     | none => ∀ e ∈ entries, totalScore item e < th
     | some m => th ≤ totalScore item m ∧
         (∀ e ∈ entries, totalScore item e ≤ totalScore item m) ∧
         ∃ pre post, entries = pre ++ m :: post ∧
           ∀ e ∈ pre, totalScore item e < totalScore item m) := by
  refine ⟨rfl, ?_⟩
  have := fmmLoop_inv item th hth entries [] none 0 ⟨rfl, by intro e he; cases he⟩
  simpa using this

/-- C7 (counterexample): with threshold `0` and one catalog entry whose total
score is `0` (titles sharing no characters, no years), the entry's score
clears the threshold (`0 ≥ 0`) and is trivially maximal, yet the matcher
returns `none`: the update condition `total_score > best_score` compares
against the initial `best_score = 0.0` and rejects it. -/
theorem find_matching_movie_zero_threshold :
    find_matching_movie { Name := some "abc".data } [{ title := some "xyz".data }] 0 = none ∧
    totalScore { Name := some "abc".data } ({ title := some "xyz".data } : CatalogEntry) = 0 := by
  have hts : totalScore { Name := some "abc".data } ({ title := some "xyz".data } : CatalogEntry) = 0 := by
    unfold totalScore calculate_similarity yearBonus
    have h1 : normalize_title ("abc".data) = "abc".data := by decide
    have h2 : normalize_title ("xyz".data) = "xyz".data := by decide
    show ratioQ (normalize_title ("abc".data)) (normalize_title ("xyz".data)) + 0 = 0
    rw [h1, h2]
    unfold ratioQ
    have hm : matchesTotal ("abc".data) ("xyz".data) = 0 := by decide
    rw [if_neg (by decide), hm]
    norm_num
  refine ⟨?_, hts⟩
  unfold find_matching_movie
  simp only [fmmLoop, hts]
  norm_num

/-- Witness for `find_matching_spec` at threshold `0.8` on a singleton
catalog. -/
theorem find_matching_spec_witness :
    (0 : ℚ) < 4/5 ∧
    find_matching_series { Name := some "abc".data } [{ title := some "abc".data }] (4/5) =
      find_matching_movie { Name := some "abc".data } [{ title := some "abc".data }] (4/5) :=
  ⟨by norm_num, (find_matching_spec _ _ _ (by norm_num)).1⟩

/-- C8 (confirmed): an item passes the watch-age filter exactly when its
last-played timestamp parses and is at or before the cutoff
(`now_utc - min_age_days`, the filter's internally computed bound, passed
here as `cutoff`); an item with an absent, empty or unparsable
`LastPlayedDate` fails the `∃` and is excluded (fails closed).  The filter
and the parser are total functions — every parse failure is represented as
`none`, mirroring the `try/except` that prevents any exception from
escaping `_parse_last_played`. -/
theorem filter_by_watch_age_spec (items : List JfItem) (cutoff : PyDateTime) (it : JfItem) :
    it ∈ _filter_by_watch_age items cutoff ↔
      it ∈ items ∧ ∃ t, _parse_last_played it = some t ∧ dtLe t cutoff = true := by
  induction items with
  | nil =>
      constructor
      · intro h; exact absurd h (by unfold _filter_by_watch_age; exact List.not_mem_nil it)
      · intro ⟨h, _⟩; exact absurd h (List.not_mem_nil it)
  | cons x rest ih =>
      unfold _filter_by_watch_age
      rcases hp : _parse_last_played x with _ | t
      · rw [if_neg (by simp)]
        constructor
        · intro h
          obtain ⟨hm, ht⟩ := ih.mp h
          exact ⟨List.mem_cons_of_mem x hm, ht⟩
        · intro ⟨hm, u, hu, hle⟩
          rcases List.mem_cons.mp hm with hx | hx
          · subst hx
            rw [hp] at hu
            cases hu
          · exact ih.mpr ⟨hx, u, hu, hle⟩
      · by_cases hle : dtLe t cutoff = true
        · rw [if_pos (show (match some t with | some u => dtLe u cutoff | none => false) = true from hle)]
          constructor
          · intro h
            rcases List.mem_cons.mp h with hx | hx
            · subst hx
              exact ⟨List.mem_cons_self it rest, t, hp, hle⟩
            · obtain ⟨hm, ht⟩ := ih.mp hx
              exact ⟨List.mem_cons_of_mem x hm, ht⟩
          · intro ⟨hm, u, hu, hule⟩
            rcases List.mem_cons.mp hm with hx | hx
            · rw [hx]
              exact List.mem_cons_self x _
            · exact List.mem_cons_of_mem x (ih.mpr ⟨hx, u, hu, hule⟩)
        · rw [if_neg (show ¬ (match some t with | some u => dtLe u cutoff | none => false) = true from hle)]
          constructor
          · intro h
            obtain ⟨hm, ht⟩ := ih.mp h
            exact ⟨List.mem_cons_of_mem x hm, ht⟩
          · intro ⟨hm, u, hu, hule⟩
            rcases List.mem_cons.mp hm with hx | hx
            · subst hx
              rw [hp] at hu
              cases hu
              exact absurd hule hle
            · exact ih.mpr ⟨hx, u, hu, hule⟩

/-- Witness for `filter_by_watch_age_spec`: with a minimum age of 30 days and
"now" at 2024-06-01T00:00:00Z (cutoff 2024-05-02T00:00:00Z), an item watched
on 2024-04-01 is kept, while an item watched on 2024-05-15, an item without a
watch date and an item with a malformed date are all excluded. -/
theorem filter_by_watch_age_witness :
    ({ UserData := some { LastPlayedDate := some "2024-04-01T00:00:00.000Z".data } } : JfItem) ∈
      _filter_by_watch_age
        [{ UserData := some { LastPlayedDate := some "2024-04-01T00:00:00.000Z".data } },
         { UserData := some { LastPlayedDate := some "2024-05-15T00:00:00Z".data } },
         { UserData := some {} },
         { UserData := some { LastPlayedDate := some "not-a-date".data } }]
        ⟨2024, 5, 2, 0, 0, 0, 0⟩ ∧
    ({ UserData := some { LastPlayedDate := some "2024-05-15T00:00:00Z".data } } : JfItem) ∉
      _filter_by_watch_age
        [{ UserData := some { LastPlayedDate := some "2024-04-01T00:00:00.000Z".data } },
         { UserData := some { LastPlayedDate := some "2024-05-15T00:00:00Z".data } },
         { UserData := some {} },
         { UserData := some { LastPlayedDate := some "not-a-date".data } }]
        ⟨2024, 5, 2, 0, 0, 0, 0⟩ := by
  constructor
  · exact (filter_by_watch_age_spec _ _ _).mpr
      ⟨by decide, ⟨2024, 4, 1, 0, 0, 0, 0⟩, by decide, by decide⟩
  · intro h
    obtain ⟨_, u, hu, hule⟩ := (filter_by_watch_age_spec _ _ _).mp h
    have hp : _parse_last_played
        { UserData := some { LastPlayedDate := some "2024-05-15T00:00:00Z".data } } =
        some ⟨2024, 5, 15, 0, 0, 0, 0⟩ := by decide
    rw [hp] at hu
    cases hu
    exact absurd hule (by decide)

theorem gcc_eq_join (svc : CleanupService) (mp : ℚ) (age : Option Int) (collect : Bool) :
    get_cleanup_candidates svc mp age collect = exceptJoin (gccBody svc mp age collect) := by
  unfold get_cleanup_candidates exceptJoin
  rcases gccBody svc mp age collect with t | t <;> rfl

theorem mem_filterNonFavorites {m : JfItem} {l : List JfItem}
    (h : m ∈ filterNonFavorites l) : _is_favorite m = false := by
  unfold filterNonFavorites at h
  have := (List.mem_filter.mp h).2
  simpa using this

theorem mem_agedList {m : JfItem} {cutoff : Int → PyDateTime} {age : Option Int}
    {l : List JfItem} (h : m ∈ agedList cutoff age l) : m ∈ l := by
  unfold agedList at h
  rcases age with _ | d
  · exact h
  · have h2 : m ∈ (if (0 : Int) ≤ d then _filter_by_watch_age l (cutoff d) else l) := h
    by_cases hd : (0 : Int) ≤ d
    · rw [if_pos hd] at h2
      exact ((filter_by_watch_age_spec _ _ _).mp h2).1
    · rw [if_neg hd] at h2
      exact h2

theorem moviesLoop_fav (svc : CleanupService) (rms : List CatalogEntry) :
    ∀ (items : List JfItem) (acc : List MovieEntry),
      (∀ m ∈ items, _is_favorite m = false) →
      (∀ e ∈ acc, _is_favorite e.jellyfin_item = false) →
      ∀ e ∈ exceptJoin (moviesLoop svc rms items acc), _is_favorite e.jellyfin_item = false := by
  intro items
  induction items with
  | nil => intro acc _ hacc; exact hacc
  | cons jm rest ih =>
      intro acc hitems hacc
      unfold moviesLoop
      rcases find_matching_movie jm rms with _ | rm
      · exact ih acc (fun m hm => hitems m (List.mem_cons_of_mem jm hm)) hacc
      · rcases hq : (match svc.qbittorrent with
            | some q => q.is_media_in_torrents (jm.Name.getD []) jm.ProductionYear
            | none => Except.ok false) with msg | b
        · simp only [hq, exceptJoin]
          exact hacc
        · simp only [hq]
          refine ih _ (fun m hm => hitems m (List.mem_cons_of_mem jm hm)) ?_
          intro e he
          rcases List.mem_append.mp he with he | he
          · exact hacc e he
          · rw [List.mem_singleton.mp he]
            exact hitems jm (List.mem_cons_self jm rest)

theorem build_entry_flag {svc : CleanupService} {users : List JfUser} {js : JfItem}
    {ss : CatalogEntry} {sim : ℚ} {age : Option Int} {q : Bool} {entry : EpisodeEntry}
    (h : _build_episode_cleanup_entry svc users js ss sim age q = some entry) :
    entry.in_qbittorrent = q := by
  unfold _build_episode_cleanup_entry at h
  rcases hs : svc.sonarr with _ | sonarr
  · rw [hs] at h
    cases h
  · rw [hs] at h
    simp only [] at h
    split at h
    · cases h
    · split at h
      · cases h
      · split at h
        · cases h
        · exact Option.some.inj h ▸ rfl

theorem seriesMatchStep_props (svc : CleanupService) (sonarr : SonarrEnv)
    (users : List JfUser) (age : Option Int) (collect : Bool)
    (sss : List CatalogEntry) (jshow : JfItem) (sAcc : List SeriesEntry)
    (eAcc : List EpisodeEntry)
    (hsh : _is_favorite jshow = false)
    (hsAcc : ∀ e ∈ sAcc, _is_favorite e.jellyfin_item = false)
    (heAcc : ∀ e ∈ eAcc, e.in_qbittorrent = false) :
    (∀ e ∈ (exceptJoin (seriesMatchStep svc sonarr users age collect sss jshow sAcc eAcc)).1,
        _is_favorite e.jellyfin_item = false) ∧
    (∀ e ∈ (exceptJoin (seriesMatchStep svc sonarr users age collect sss jshow sAcc eAcc)).2,
        e.in_qbittorrent = false) := by
  unfold seriesMatchStep
  rcases find_matching_series jshow sss with _ | sm
  · exact ⟨hsAcc, heAcc⟩
  · rcases hq : (match svc.qbittorrent with
        | some q => q.is_media_in_torrents (jshow.Name.getD []) jshow.ProductionYear
        | none => Except.ok false) with msg | qb
    · simp only [hq, exceptJoin]
      exact ⟨hsAcc, heAcc⟩
    · simp only [hq]
      rcases hf : (match sm.id with
          | some n => if n ≠ 0 then sonarr.is_series_fully_watched n else Except.ok false
          | none => Except.ok false) with msg2 | fd
      · simp only [hf, exceptJoin]
        exact ⟨hsAcc, heAcc⟩
      · simp only [hf, exceptJoin]
        constructor
        · by_cases hfav : _series_has_favorite_content svc.jellyfin users jshow
          · simp only [hfav, if_true]
            exact hsAcc
          · simp only [hfav, if_false]
            intro e he
            rcases List.mem_append.mp he with he | he
            · exact hsAcc e he
            · rw [List.mem_singleton.mp he]
              exact hsh
        · by_cases hc : (collect && !qb) = true
          · simp only [hc, if_true]
            rcases hb : _build_episode_cleanup_entry svc users jshow sm
                (calculate_similarity (jshow.Name.getD []) (sm.title.getD [])) age qb with _ | entry
            · simp only [hb]
              exact heAcc
            · simp only [hb]
              intro e he
              rcases List.mem_append.mp he with he | he
              · exact heAcc e he
              · rw [List.mem_singleton.mp he]
                have hqb : qb = false := by
                  rcases Bool.and_eq_true _ _ |>.mp hc with ⟨_, hnq⟩
                  simpa using hnq
                rw [build_entry_flag hb, hqb]
          · simp only [hc, if_false]
            exact heAcc

theorem seriesMatchStep_eps_of_no_collect (svc : CleanupService) (sonarr : SonarrEnv)
    (users : List JfUser) (age : Option Int) (sss : List CatalogEntry) (jshow : JfItem)
    (sAcc : List SeriesEntry) (eAcc : List EpisodeEntry) :
    (exceptJoin (seriesMatchStep svc sonarr users age false sss jshow sAcc eAcc)).2 = eAcc := by
  unfold seriesMatchStep
  rcases find_matching_series jshow sss with _ | sm
  · rfl
  · rcases hq : (match svc.qbittorrent with
        | some q => q.is_media_in_torrents (jshow.Name.getD []) jshow.ProductionYear
        | none => Except.ok false) with msg | qb
    · simp only [hq, exceptJoin]
    · simp only [hq]
      rcases hf : (match sm.id with
          | some n => if n ≠ 0 then sonarr.is_series_fully_watched n else Except.ok false
          | none => Except.ok false) with msg2 | fd
      · simp only [hf, exceptJoin]
      · simp only [hf, exceptJoin, Bool.false_and]
        rfl

theorem seriesMatchStep_eps_of_qbt (svc : CleanupService) (sonarr : SonarrEnv)
    (users : List JfUser) (age : Option Int) (collect : Bool) (sss : List CatalogEntry)
    (jshow : JfItem) (sAcc : List SeriesEntry) (eAcc : List EpisodeEntry)
    (hq : (match svc.qbittorrent with
        | some q => q.is_media_in_torrents (jshow.Name.getD []) jshow.ProductionYear
        | none => Except.ok false) = Except.ok true) :
    (exceptJoin (seriesMatchStep svc sonarr users age collect sss jshow sAcc eAcc)).2 = eAcc := by
  unfold seriesMatchStep
  rcases find_matching_series jshow sss with _ | sm
  · rfl
  · simp only [hq]
    rcases hf : (match sm.id with
        | some n => if n ≠ 0 then sonarr.is_series_fully_watched n else Except.ok false
        | none => Except.ok false) with msg2 | fd
    · simp only [hf, exceptJoin]
    · simp only [hf, exceptJoin, Bool.not_true, Bool.and_false]
      rfl

theorem seriesLoop_props (svc : CleanupService) (sonarr : SonarrEnv) (users : List JfUser)
    (age : Option Int) (collect : Bool) (sss : List CatalogEntry) :
    ∀ (items : List JfItem) (sAcc : List SeriesEntry) (eAcc : List EpisodeEntry),
      (∀ m ∈ items, _is_favorite m = false) →
      (∀ e ∈ sAcc, _is_favorite e.jellyfin_item = false) →
      (∀ e ∈ eAcc, e.in_qbittorrent = false) →
      (∀ e ∈ (exceptJoin (seriesLoop svc sonarr users age collect sss items sAcc eAcc)).1,
          _is_favorite e.jellyfin_item = false) ∧
      (∀ e ∈ (exceptJoin (seriesLoop svc sonarr users age collect sss items sAcc eAcc)).2,
          e.in_qbittorrent = false) := by
  intro items
  induction items with
  | nil => intro sAcc eAcc _ hs he; exact ⟨hs, he⟩
  | cons jshow rest ih =>
      intro sAcc eAcc hitems hs he
      unfold seriesLoop
      have hstep := seriesMatchStep_props svc sonarr users age collect sss jshow sAcc eAcc
        (hitems jshow (List.mem_cons_self jshow rest)) hs he
      rcases hst : seriesMatchStep svc sonarr users age collect sss jshow sAcc eAcc
        with p | ⟨s2, e2⟩
      · rw [hst] at hstep
        simp only [hst]
        exact hstep
      · rw [hst] at hstep
        simp only [hst]
        exact ih s2 e2 (fun m hm => hitems m (List.mem_cons_of_mem jshow hm)) hstep.1 hstep.2

theorem seriesLoop_eps_of_no_collect (svc : CleanupService) (sonarr : SonarrEnv)
    (users : List JfUser) (age : Option Int) (sss : List CatalogEntry) :
    ∀ (items : List JfItem) (sAcc : List SeriesEntry) (eAcc : List EpisodeEntry),
      (exceptJoin (seriesLoop svc sonarr users age false sss items sAcc eAcc)).2 = eAcc := by
  intro items
  induction items with
  | nil => intro sAcc eAcc; rfl
  | cons jshow rest ih =>
      intro sAcc eAcc
      unfold seriesLoop
      have hstep := seriesMatchStep_eps_of_no_collect svc sonarr users age sss jshow sAcc eAcc
      rcases hst : seriesMatchStep svc sonarr users age false sss jshow sAcc eAcc
        with p | ⟨s2, e2⟩
      · rw [hst] at hstep
        simp only [hst]
        exact hstep
      · rw [hst] at hstep
        simp only [hst]
        rw [ih s2 e2]
        exact hstep

theorem moviesPhase_cases (svc : CleanupService) (um : List JfItem)
    (hum : ∀ m ∈ um, _is_favorite m = false) :
    (∀ cm, moviesPhase svc um = Except.ok cm →
      ∀ e ∈ cm, _is_favorite e.jellyfin_item = false) ∧
    (∀ t, moviesPhase svc um = Except.error t →
      (∀ e ∈ t.1, _is_favorite e.jellyfin_item = false) ∧ t.2.1 = [] ∧ t.2.2 = []) := by
  unfold moviesPhase
  split
  · constructor
    · intro cm hcm
      cases hcm
      intro e he
      cases he
    · intro t ht
      cases ht
  · split
    · constructor
      · intro cm hcm
        cases hcm
      · intro t ht
        cases ht
        exact ⟨fun e he => absurd he (List.not_mem_nil e), rfl, rfl⟩
    · next radarr_movies hg =>
        have hloop := moviesLoop_fav svc radarr_movies um [] hum
          (fun e he => absurd he (List.not_mem_nil e))
        split
        · next acc hl =>
            constructor
            · intro cm hcm
              cases hcm
            · intro t ht
              cases ht
              rw [hl] at hloop
              exact ⟨hloop, rfl, rfl⟩
        · next l hl =>
            constructor
            · intro cm hcm
              cases hcm
              rw [hl] at hloop
              exact hloop
            · intro t ht
              cases ht

theorem seriesPhase_cases (svc : CleanupService) (users : List JfUser) (age : Option Int)
    (collect : Bool) (cm : List MovieEntry) (us : List JfItem)
    (hus : ∀ m ∈ us, _is_favorite m = false) :
    (∀ p, seriesPhase svc users age collect cm us = Except.ok p →
      (∀ e ∈ p.1, _is_favorite e.jellyfin_item = false) ∧
      (∀ e ∈ p.2, e.in_qbittorrent = false) ∧ (collect = false → p.2 = [])) ∧
    (∀ t, seriesPhase svc users age collect cm us = Except.error t →
      t.1 = cm ∧ (∀ e ∈ t.2.1, _is_favorite e.jellyfin_item = false) ∧
      (∀ e ∈ t.2.2, e.in_qbittorrent = false) ∧ (collect = false → t.2.2 = [])) := by
  unfold seriesPhase
  split
  · constructor
    · intro p hp
      cases hp
      exact ⟨fun e he => absurd he (List.not_mem_nil e),
        fun e he => absurd he (List.not_mem_nil e), fun _ => rfl⟩
    · intro t ht
      cases ht
  · next sonarr hs =>
      split
      · constructor
        · intro p hp
          cases hp
        · intro t ht
          cases ht
          exact ⟨rfl, fun e he => absurd he (List.not_mem_nil e),
            fun e he => absurd he (List.not_mem_nil e), fun _ => rfl⟩
      · next sss hg =>
          have hloop := seriesLoop_props svc sonarr users age collect sss us [] []
            hus (fun e he => absurd he (List.not_mem_nil e))
            (fun e he => absurd he (List.not_mem_nil e))
          split
          · next q hl =>
              constructor
              · intro p hp
                cases hp
              · intro t ht
                cases ht
                rw [hl] at hloop
                refine ⟨rfl, hloop.1, hloop.2, ?_⟩
                intro hcoll
                subst hcoll
                have hnc := seriesLoop_eps_of_no_collect svc sonarr users age sss us [] []
                rw [hl] at hnc
                exact hnc
          · next q hl =>
              constructor
              · intro p hp
                cases hp
                rw [hl] at hloop
                refine ⟨hloop.1, hloop.2, ?_⟩
                intro hcoll
                subst hcoll
                have hnc := seriesLoop_eps_of_no_collect svc sonarr users age sss us [] []
                rw [hl] at hnc
                exact hnc
              · intro t ht
                cases ht

theorem gccAfterUsers_invariants (svc : CleanupService) (age : Option Int) (collect : Bool)
    (users : List JfUser) :
    (∀ e ∈ (exceptJoin (gccAfterUsers svc age collect users)).1,
        _is_favorite e.jellyfin_item = false) ∧
    (∀ e ∈ (exceptJoin (gccAfterUsers svc age collect users)).2.1,
        _is_favorite e.jellyfin_item = false) ∧
    (∀ e ∈ (exceptJoin (gccAfterUsers svc age collect users)).2.2,
        e.in_qbittorrent = false) ∧
    (collect = false → (exceptJoin (gccAfterUsers svc age collect users)).2.2 = []) := by
  unfold gccAfterUsers
  split
  · exact ⟨fun e he => absurd he (List.not_mem_nil e),
      fun e he => absurd he (List.not_mem_nil e),
      fun e he => absurd he (List.not_mem_nil e), fun _ => rfl⟩
  · next awm aws hf =>
      have hum : ∀ m ∈ agedList svc.cutoff age (filterNonFavorites (dedupById awm)),
          _is_favorite m = false :=
        fun m hm => mem_filterNonFavorites (mem_agedList hm)
      have hus : ∀ m ∈ agedList svc.cutoff age (filterNonFavorites (dedupById aws)),
          _is_favorite m = false :=
        fun m hm => mem_filterNonFavorites (mem_agedList hm)
      dsimp only
      split
      · next t hmp =>
          obtain ⟨h1, h2, h3⟩ := (moviesPhase_cases svc _ hum).2 t hmp
          simp only [exceptJoin]
          exact ⟨h1, by rw [h2]; exact fun e he => absurd he (List.not_mem_nil e),
            by rw [h3]; exact fun e he => absurd he (List.not_mem_nil e), fun _ => h3⟩
      · next cleanup_movies hmp =>
          have hcm := (moviesPhase_cases svc _ hum).1 cleanup_movies hmp
          split
          · next t hsp =>
              obtain ⟨h1, h2, h3, h4⟩ := (seriesPhase_cases svc users age collect
                cleanup_movies _ hus).2 t hsp
              simp only [exceptJoin]
              exact ⟨by rw [h1]; exact hcm, h2, h3, h4⟩
          · next cs ec hsp =>
              obtain ⟨h1, h2, h3⟩ := (seriesPhase_cases svc users age collect
                cleanup_movies _ hus).1 (cs, ec) hsp
              simp only [exceptJoin]
              exact ⟨hcm, h1, h2, h3⟩

theorem gcc_invariants (svc : CleanupService) (mp : ℚ) (age : Option Int) (collect : Bool) :
    (∀ e ∈ (get_cleanup_candidates svc mp age collect).1,
        _is_favorite e.jellyfin_item = false) ∧
    (∀ e ∈ (get_cleanup_candidates svc mp age collect).2.1,
        _is_favorite e.jellyfin_item = false) ∧
    (∀ e ∈ (get_cleanup_candidates svc mp age collect).2.2,
        e.in_qbittorrent = false) ∧
    (collect = false → (get_cleanup_candidates svc mp age collect).2.2 = []) := by
  rw [gcc_eq_join]
  unfold gccBody
  split
  · next users hu => exact gccAfterUsers_invariants svc age collect users
  · next hu =>
      split
      · next u hcu => exact gccAfterUsers_invariants svc age collect [u]
      · exact ⟨fun e he => absurd he (List.not_mem_nil e),
          fun e he => absurd he (List.not_mem_nil e),
          fun e he => absurd he (List.not_mem_nil e), fun _ => rfl⟩

/-- C1 (amended): every movie or series candidate produced by
`get_cleanup_candidates` has a non-favorite surviving record: after the
per-identifier deduplication (insertion order, last report wins), any item
whose surviving record is marked favorite is filtered out and never appears
in the movie or series candidate lists.  The original any-viewer claim is
refuted by `favorite_lost_by_dedup`: deduplication keeps only the *last*
viewer report per identifier, so an earlier viewer's favorite mark is
discarded before the favorite filter runs. -/
theorem cleanup_candidates_exclude_surviving_favorites (svc : CleanupService) (mp : ℚ)
    (age : Option Int) (collect : Bool) :
    (∀ e ∈ (get_cleanup_candidates svc mp age collect).1,
        _is_favorite e.jellyfin_item = false) ∧
    (∀ e ∈ (get_cleanup_candidates svc mp age collect).2.1,
        _is_favorite e.jellyfin_item = false) :=
  ⟨(gcc_invariants svc mp age collect).1, (gcc_invariants svc mp age collect).2.1⟩

/-- C2 (amended): episode-cleanup entries are constructed only when
episode-level candidates were explicitly requested
(`collect_episode_data = True`); with the flag off the episode list is
always empty.  The other half of the original claim is refuted by
`series_in_both_candidate_lists`: a series placed in the whole-series
candidate list can simultaneously yield an episode-cleanup entry, because
the episode-entry construction is guarded only by the request flag and the
qBittorrent safety flag, not by whole-series queueing. -/
theorem episode_entries_only_when_requested (svc : CleanupService) (mp : ℚ)
    (age : Option Int) :
    (get_cleanup_candidates svc mp age false).2.2 = [] :=
  (gcc_invariants svc mp age false).2.2.2 rfl

/-- C9 (confirmed): episode cleanup entries are gated on the torrent-client
safety flag at construction time.  Globally, every episode-cleanup entry in
`get_cleanup_candidates`' output carries `in_qbittorrent = false` (the flag
recorded for its series in that iteration); per iteration, when the safety
check for the series reports present-in-qBittorrent, the loop body adds no
episode entry at all, even when episode collection was requested. -/
theorem episode_entries_qbt_gate (svc : CleanupService) (mp : ℚ) (age : Option Int)
    (collect : Bool) :
    (∀ e ∈ (get_cleanup_candidates svc mp age collect).2.2, e.in_qbittorrent = false) ∧
    (∀ (sonarr : SonarrEnv) (users : List JfUser) (sss : List CatalogEntry)
        (jshow : JfItem) (sAcc : List SeriesEntry) (eAcc : List EpisodeEntry),
      (match svc.qbittorrent with
        | some q => q.is_media_in_torrents (jshow.Name.getD []) jshow.ProductionYear
        | none => Except.ok false) = Except.ok true →
      (exceptJoin (seriesMatchStep svc sonarr users age collect sss jshow sAcc eAcc)).2 = eAcc) :=
  ⟨(gcc_invariants svc mp age collect).2.2.1,
   fun sonarr users sss jshow sAcc eAcc hq =>
     seriesMatchStep_eps_of_qbt svc sonarr users age collect sss jshow sAcc eAcc hq⟩

theorem moviesPhase_fault {svc : CleanupService} {r : RadarrEnv} {msg : List Char}
    (h1 : svc.radarr = some r) (h2 : r.get_movies = Except.error msg) (um : List JfItem) :
    moviesPhase svc um = Except.error ([], [], []) := by
  unfold moviesPhase
  rw [h1]
  simp only [h2]

theorem gccAfterUsers_radarr_fault {svc : CleanupService} {r : RadarrEnv} {msg : List Char}
    (h1 : svc.radarr = some r) (h2 : r.get_movies = Except.error msg)
    (age : Option Int) (collect : Bool) (users : List JfUser) :
    exceptJoin (gccAfterUsers svc age collect users) = ([], [], []) := by
  unfold gccAfterUsers
  split
  · rfl
  · next awm aws hf =>
      dsimp only
      rw [moviesPhase_fault h1 h2]
      rfl

/-- C4 (amended): a fault from the movie manager's bulk catalog fetch is
*not* propagated to the caller: `get_cleanup_candidates`' blanket exception
handler catches it, logs it, and returns the lists built when the fault
escaped — for a `get_movies` fault that is always the empty triple (the
series pass, which would have run after, is also abandoned).  The caller
receives an ordinary, indistinguishable-from-empty result rather than a
pass-level failure; see `catalog_fault_recovered_internally` for a concrete
run. -/
theorem gcc_swallows_radarr_fault (svc : CleanupService) (mp : ℚ) (age : Option Int)
    (collect : Bool) (r : RadarrEnv) (msg : List Char)
    (h1 : svc.radarr = some r) (h2 : r.get_movies = Except.error msg) :
    get_cleanup_candidates svc mp age collect = ([], [], []) := by
  rw [gcc_eq_join]
  unfold gccBody
  split
  · next users hu => exact gccAfterUsers_radarr_fault h1 h2 age collect users
  · next hu =>
      split
      · next u hcu => exact gccAfterUsers_radarr_fault h1 h2 age collect [u]
      · rfl

theorem calculate_similarity_same (t : List Char) : calculate_similarity t t = 1 := by
  unfold calculate_similarity
  exact ratioQ_self _

theorem totalScore_xPlain : totalScore xPlain entryAbc = 1 := by
  show calculate_similarity ("abc".data) ("abc".data) + 0 = 1
  rw [calculate_similarity_same]
  norm_num

theorem fmm_single {item : JfItem} {entry : CatalogEntry}
    (hts : totalScore item entry = 1) :
    find_matching_movie item [entry] (4/5) = some entry := by
  unfold find_matching_movie
  show fmmLoop item (4/5) [entry] none 0 = some entry
  unfold fmmLoop
  rw [hts]
  rw [if_pos (by norm_num : (1:ℚ) > 0 ∧ (1:ℚ) ≥ 4/5)]
  rfl

theorem svcDedup_eval :
    get_cleanup_candidates svcDedup (4/5) none false = ([dedupMovieEntry], [], []) := by
  have hfind : find_matching_movie xPlain [entryAbc] (4/5) = some entryAbc :=
    fmm_single totalScore_xPlain
  have hmloop : moviesLoop svcDedup [entryAbc] [xPlain] [] = Except.ok [dedupMovieEntry] := by
    unfold moviesLoop
    rw [hfind]
    rfl
  have hmp : moviesPhase svcDedup [xPlain] = Except.ok [dedupMovieEntry] := by
    show (match moviesLoop svcDedup [entryAbc] [xPlain] [] with
          | Except.error acc => Except.error (acc, [], [])
          | Except.ok l => Except.ok l) = Except.ok [dedupMovieEntry]
    rw [hmloop]
  have hsp : seriesPhase svcDedup [⟨"u1".data⟩, ⟨"u2".data⟩] none false
      [dedupMovieEntry] [] = Except.ok ([], []) := rfl
  have hbody : gccBody svcDedup (4/5) none false =
      (match moviesPhase svcDedup [xPlain] with
       | Except.error t => Except.error t
       | Except.ok cleanup_movies =>
           match seriesPhase svcDedup [⟨"u1".data⟩, ⟨"u2".data⟩] none false
               cleanup_movies [] with
           | Except.error t => Except.error t
           | Except.ok (cs, ec) => Except.ok (cleanup_movies, cs, ec)) := rfl
  rw [gcc_eq_join, hbody, hmp]
  simp only [hsp, exceptJoin]

theorem totalScore_seriesS : totalScore seriesS entryAbc = 1 := by
  show calculate_similarity ("abc".data) ("abc".data) + 0 = 1
  rw [calculate_similarity_same]
  norm_num

theorem svcSeries_eval :
    get_cleanup_candidates svcSeries (4/5) none true = ([], [seriesEntryVal], [episodeEntryVal]) := by
  have hfindS : find_matching_series seriesS [entryAbc] (4/5) = some entryAbc := by
    show find_matching_movie seriesS [entryAbc] (4/5) = some entryAbc
    exact fmm_single totalScore_seriesS
  have hsloop : seriesLoop svcSeries sonarrAbc [⟨"u1".data⟩] none true [entryAbc]
      [seriesS] [] [] = Except.ok ([seriesEntryVal], [episodeEntryVal]) := by
    unfold seriesLoop seriesMatchStep
    rw [hfindS]
    rfl
  have hspS : seriesPhase svcSeries [⟨"u1".data⟩] none true [] [seriesS] =
      Except.ok ([seriesEntryVal], [episodeEntryVal]) := by
    show (match seriesLoop svcSeries sonarrAbc [⟨"u1".data⟩] none true [entryAbc]
            [seriesS] [] [] with
          | Except.error p => Except.error ([], p.1, p.2)
          | Except.ok p => Except.ok p) =
        Except.ok ([seriesEntryVal], [episodeEntryVal])
    rw [hsloop]
  have hbodyS : gccBody svcSeries (4/5) none true =
      (match moviesPhase svcSeries [] with
       | Except.error t => Except.error t
       | Except.ok cleanup_movies =>
           match seriesPhase svcSeries [⟨"u1".data⟩] none true cleanup_movies [seriesS] with
           | Except.error t => Except.error t
           | Except.ok (cs, ec) => Except.ok (cleanup_movies, cs, ec)) := rfl
  have hmpS : moviesPhase svcSeries [] = Except.ok [] := rfl
  rw [gcc_eq_join, hbodyS, hmpS]
  simp only [hspS, exceptJoin]

/-- C1 (counterexample): viewer `u1` reports movie `m1` as a favorite, but
viewer `u2`'s later report of the same identifier survives deduplication
(`dict` comprehension keeps the last value per key), so the favorite mark is
discarded and `m1` still becomes a movie-cleanup candidate. -/
theorem favorite_lost_by_dedup :
    svcDedup.jellyfin.get_watched_movies ("u1".data) = Except.ok [xFav] ∧
    _is_favorite xFav = true ∧
    xFav.Id = xPlain.Id ∧
    (get_cleanup_candidates svcDedup (4/5) none false).1.map (fun e => e.jellyfin_item) =
      [xPlain] := by
  refine ⟨rfl, rfl, rfl, ?_⟩
  rw [svcDedup_eval]
  rfl

/-- Witness for `cleanup_candidates_exclude_surviving_favorites` on the
`svcDedup` run. -/
theorem cleanup_candidates_exclude_surviving_favorites_witness :
    _is_favorite dedupMovieEntry.jellyfin_item = false := by
  have h := (cleanup_candidates_exclude_surviving_favorites svcDedup (4/5) none false).1
  refine h dedupMovieEntry ?_
  rw [svcDedup_eval]
  exact List.mem_singleton.mpr rfl

/-- C2 (counterexample): in the `svcSeries` run the same series (Sonarr
entry `entryAbc`) is simultaneously queued for whole-series deletion and
given an episode-cleanup entry. -/
theorem series_in_both_candidate_lists :
    (get_cleanup_candidates svcSeries (4/5) none true).2.1.map (fun e => e.sonarr_item) =
      [entryAbc] ∧
    (get_cleanup_candidates svcSeries (4/5) none true).2.2.map (fun e => e.sonarr_series) =
      [entryAbc] := by
  constructor <;> (rw [svcSeries_eval]; rfl)

/-- Witness for `episode_entries_qbt_gate` on the `svcSeries` run. -/
theorem episode_entries_qbt_gate_witness :
    episodeEntryVal.in_qbittorrent = false := by
  have h := (episode_entries_qbt_gate svcSeries (4/5) none true).1
  refine h episodeEntryVal ?_
  rw [svcSeries_eval]
  exact List.mem_singleton.mpr rfl

/-- C4 (counterexample): with one watched movie and a Radarr whose catalog
fetch raises, the fault escapes the `try`-block (`gccBody` errors), but
`get_cleanup_candidates` returns the ordinary empty triple: the fault is
recovered internally, not propagated to the caller as a pass-level
failure. -/
theorem catalog_fault_recovered_internally :
    radarrFault.get_movies = Except.error ("connection refused".data) ∧
    gccBody svcRadarrFault (4/5) none false = Except.error ([], [], []) ∧
    get_cleanup_candidates svcRadarrFault (4/5) none false = ([], [], []) :=
  ⟨rfl, rfl, rfl⟩

/-- Witness for `gcc_swallows_radarr_fault` on the `svcRadarrFault` run. -/
theorem gcc_swallows_radarr_fault_witness :
    get_cleanup_candidates svcRadarrFault (4/5) none false = ([], [], []) :=
  gcc_swallows_radarr_fault svcRadarrFault (4/5) none false radarrFault
    ("connection refused".data) rfl rfl

/-- The movie-deletion loop of `execute_cleanup` without `dry_run`:
successes are counted in `movies_deleted`, non-successes and faults in
`movies_failed`, and exactly the faulting movies contribute one error
string each, in order. -/
theorem movieDel_foldl (radarr : RadarrEnv) (df ax : Bool)
    (movies : List MovieEntry) (res : CleanupResults) :
    movies.foldl (movieDelStep radarr df ax false) res =
      { res with
          movies_deleted := res.movies_deleted + movies.countP (fun m =>
            match radarr.delete_movie m.radarr_item.id df ax with
            | Except.ok true => true
            | _ => false),
          movies_failed := res.movies_failed + movies.countP (fun m =>
            match radarr.delete_movie m.radarr_item.id df ax with
            | Except.ok true => false
            | _ => true),
          errors := res.errors ++ movies.filterMap (fun m =>
            match radarr.delete_movie m.radarr_item.id df ax with
            | Except.error msg => some ("Error deleting movie ".data ++
                m.radarr_item.title.getD ("Unknown".data) ++ ": ".data ++ msg)
            | _ => none) } := by
  induction movies generalizing res with
  | nil => simp
  | cons m ms ih =>
      rw [List.foldl_cons, ih]
      cases hd : radarr.delete_movie m.radarr_item.id df ax with
      | ok b =>
          cases b <;>
            simp [movieDelStep, hd, List.countP_cons, List.filterMap_cons,
              Nat.add_comm, Nat.add_assoc, Nat.add_left_comm]
      | error msg =>
          simp [movieDelStep, hd, List.countP_cons, List.filterMap_cons,
            Nat.add_comm, Nat.add_assoc, Nat.add_left_comm]

/-- C3 (amended): in `execute_cleanup` without `dry_run`, with Radarr
available and no series or episode work, `movies_deleted` counts exactly the
movies whose deletion call returns success, `movies_failed` counts all
others (non-success results and faults alike), and the error list holds one
string naming each faulting movie — non-success results append nothing. -/
theorem execute_cleanup_movie_accounting (svc : CleanupService)
    (radarr : RadarrEnv) (movies : List MovieEntry) (df ax de : Bool)
    (hr : svc.radarr = some radarr) (hs : svc.sonarr = none) :
    execute_cleanup svc movies [] none df ax false de =
      { movies_deleted := movies.countP (fun m =>
          match radarr.delete_movie m.radarr_item.id df ax with
          | Except.ok true => true
          | _ => false),
        movies_failed := movies.countP (fun m =>
          match radarr.delete_movie m.radarr_item.id df ax with
          | Except.ok true => false
          | _ => true),
        errors := movies.filterMap (fun m =>
          match radarr.delete_movie m.radarr_item.id df ax with
          | Except.error msg => some ("Error deleting movie ".data ++
              m.radarr_item.title.getD ("Unknown".data) ++ ": ".data ++ msg)
          | _ => none) } := by
  have h := movieDel_foldl radarr df ax movies {}
  simp only [Nat.zero_add, List.nil_append] at h
  simp only [execute_cleanup, hr, hs, Bool.and_false, List.foldl_nil]
  exact h

/-- C3 (counterexample): a deletion call that returns `False` (non-success
without raising) increments `movies_failed` but appends no error string —
the error list stays empty. -/
theorem movie_nonsuccess_appends_no_error :
    radarrRefuses.delete_movie (some 1) true false = Except.ok false ∧
    execute_cleanup svcRefuses [movieEntryOf 1 ("abc".data)] [] none
        true false false false =
      { movies_failed := 1 } :=
  ⟨rfl, rfl⟩

/-- Witness for `execute_cleanup_movie_accounting`: three movie candidates
where the second deletion call raises yield two deletions, one failure and
exactly one error string naming that movie. -/
theorem execute_cleanup_movie_accounting_witness :
    execute_cleanup svcBoom
        [movieEntryOf 1 ("aa".data), movieEntryOf 2 ("bb".data),
          movieEntryOf 3 ("cc".data)] [] none true false false false =
      { movies_deleted := 2, movies_failed := 1,
        errors := ["Error deleting movie bb: boom".data] } := by
  rw [execute_cleanup_movie_accounting svcBoom radarrBoom _ true false false rfl rfl]
  rfl

/-- C10: in `execute_cleanup` without `dry_run`, when the Jellyfin deletion
of an episode succeeds but the Sonarr unmonitor call returns `False`
(non-success without raising), the episode is still counted in
`episodes_deleted` and nothing is appended to the error list: the whole run
over that single episode yields exactly `episodes_deleted = 1` and all other
fields at their defaults. -/
theorem episode_unmonitor_nonsuccess_still_deleted
    (svc : CleanupService) (sonarr : SonarrEnv) (entry : EpisodeEntry)
    (ep : MatchedEpisode) (df ax : Bool) (b : Bool)
    (hs : svc.sonarr = some sonarr)
    (heps : entry.episodes = [ep])
    (hdel : svc.jellyfin.delete_item ep.jellyfin_episode.Id = Except.ok b)
    (hmon : sonarr.set_single_episode_monitored ep.sonarr_episode.id false =
      Except.ok false) :
    execute_cleanup svc [] [] (some [entry]) df ax false true =
      { episodes_deleted := 1 } := by
  have h1 : episodeSeriesStep svc sonarr false {} entry =
      { episodes_deleted := 1 } := by
    simp only [episodeSeriesStep, heps, List.foldl_cons, List.foldl_nil,
      episodeItemStep, hdel, hmon]
    rfl
  cases hR : svc.radarr with
  | none => simp [execute_cleanup, hs, hR, h1]
  | some radarr => simp [execute_cleanup, hs, hR, h1]

/-- Witness for `episode_unmonitor_nonsuccess_still_deleted` on the
`svcMonWarn` run. -/
theorem episode_unmonitor_nonsuccess_still_deleted_witness :
    execute_cleanup svcMonWarn [] [] (some [entryWarn]) true false false true =
      { episodes_deleted := 1 } :=
  episode_unmonitor_nonsuccess_still_deleted svcMonWarn sonarrMonWarn entryWarn
    epWarn true false true rfl rfl rfl rfl
